import Mathlib

/-!
A shallow embedding of the trade lifecycle engine of the rze.co backend:
the trade execution service (phased exits), the order event processor
(push + poll paths of the trade monitor), and the trade reconciliation
service.  Where the repository file holds two concatenated revisions of
the reconciliation service, the second ("enhanced") revision is embedded,
since it is the revision the module finally exports.

Modelling conventions:
* JavaScript numbers are modelled as exact rationals (prices, percentages,
  P&L) and integers (share counts, phase numbers); binary floating point
  rounding is out of scope.
* Database tables are lists of rows; `insert` appends, `update ... where`
  maps over the rows matching the predicate.  Timestamp columns
  (`created_at`, `updated_at`, `filled_at`, `started_at`, `completed_at`,
  `exit_time`), audit-only text columns and raw venue payload snapshot
  columns are omitted.
* The serialized `event_data` JSON blob of an order event is abstracted to
  the list of venue order / OCO leg id strings occurring in it, so the SQL
  test `event_data::text LIKE '%legId%'` becomes list membership.
* Venue (Alpaca) calls are suspension points returning external data; the
  data they return is passed in through a `VenueEnv` argument (the venue
  order ids and statuses assigned to newly placed orders, and an oracle
  telling which cancel requests throw).
* A handler that can throw a JavaScript error is embedded as a function
  into `Except String DB`; `Except.error` is a thrown error.  On the error
  branch the pre-error database writes of the failing handler itself are
  not tracked (no claim exercises a partially failed handler).
-/

namespace Rze

/-- A row of the `trades` table (created by `executeTrade`). -/
structure Trade where
  id : Nat
  trade_uuid : String
  symbol : String
  entry_price : ℚ
  total_shares : ℤ
  position_size : ℚ
  remaining_shares : ℤ
  current_phase : ℤ
  status : String
  realized_pnl : Option ℚ := none
  realized_pnl_pct : Option ℚ := none
  exit_reason : Option String := none
  exit_phase : Option ℤ := none
  deriving DecidableEq, Repr

/-- A row of the `trade_phases` table: one of the four exit tranches. -/
structure TradePhase where
  id : Nat
  trade_id : Nat
  phase_number : ℤ
  status : String
  take_profit_pct : ℚ
  stop_loss_pct : ℚ
  sell_pct : ℚ
  take_profit_price : ℚ
  stop_loss_price : ℚ
  shares_to_sell : ℤ
  exit_price : Option ℚ := none
  exit_type : Option String := none
  phase_pnl : Option ℚ := none
  deriving DecidableEq, Repr

/-- A row of the `orders` table: one order submitted to the venue. -/
structure Order where
  id : Nat
  trade_id : Nat
  alpaca_order_id : String
  client_order_id : String
  symbol : String
  side : String
  order_type : String
  order_class : String
  qty : ℤ
  limit_price : Option ℚ := none
  stop_price : Option ℚ := none
  phase : ℤ
  purpose : String
  status : String
  filled_qty : Option ℤ := none
  filled_avg_price : Option ℚ := none
  deriving DecidableEq, Repr

/-- A row of the append-only `order_events` audit table.  `event_data`
abstracts the serialized JSON payload to the venue order / leg id strings
occurring in it (see the file header). -/
structure OrderEvent where
  order_id : Option Nat
  trade_id : Nat
  event_type : String
  event_data : List String
  deriving DecidableEq, Repr

/-- A row of the `reconciliation_issues` table (`flagForManualReview`). -/
structure ReconciliationIssue where
  trade_id : Nat
  issue_type : String
  expected_shares : ℤ
  actual_shares : ℤ
  discrepancy : ℤ
  status : String
  deriving DecidableEq, Repr

/-- The ledger store: the five tables the lifecycle engine touches, plus a
fresh-row-id source standing in for the store's generated primary keys. -/
structure DB where
  trades : List Trade
  trade_phases : List TradePhase
  orders : List Order
  order_events : List OrderEvent
  reconciliation_issues : List ReconciliationIssue
  nextId : Nat
  deriving DecidableEq, Repr

/-- One `{phase, take_profit_pct, stop_loss_pct, sell_pct}` entry of an
exit template's `phases` configuration array. -/
structure TemplatePhase where
  phase : ℤ
  take_profit_pct : ℚ
  stop_loss_pct : ℚ
  sell_pct : ℚ
  deriving DecidableEq, Repr

/-- The phase-creation loop of `executeTrade`: iterating over the template
phases with a running `sharesAllocated`, phase 4 gets
`totalShares - sharesAllocated` and every other phase gets
`Math.floor(totalShares * (phase.sell_pct / 100))`.  Returns the
`shares_to_sell` of each phase in template order. -/
def sharesToSellList (totalShares : ℤ) : List TemplatePhase → ℤ → List ℤ
  | [], _ => []
  | p :: rest, sharesAllocated =>
    let s : ℤ :=
      if p.phase = 4 then totalShares - sharesAllocated
      else ⌊(totalShares : ℚ) * (p.sell_pct / 100)⌋
    s :: sharesToSellList totalShares rest (sharesAllocated + s)

/-! ## Ledger store primitives -/

/-- `db("trades").where("id", tradeId).first()`. -/
def DB.findTrade (db : DB) (tradeId : Nat) : Option Trade :=
  db.trades.find? (fun t => decide (t.id = tradeId))

/-- `db("trade_phases").where({trade_id, phase_number}).first()`. -/
def DB.findPhase (db : DB) (tradeId : Nat) (phaseNumber : ℤ) : Option TradePhase :=
  db.trade_phases.find? (fun p =>
    decide (p.trade_id = tradeId ∧ p.phase_number = phaseNumber))

/-- A conditional row update on the `trades` table. -/
def DB.updateTrades (db : DB) (pred : Trade → Bool) (f : Trade → Trade) : DB :=
  { db with trades := db.trades.map (fun t => if pred t then f t else t) }

/-- A conditional row update on the `trade_phases` table. -/
def DB.updatePhases (db : DB) (pred : TradePhase → Bool) (f : TradePhase → TradePhase) : DB :=
  { db with trade_phases := db.trade_phases.map (fun p => if pred p then f p else p) }

/-- A conditional row update on the `orders` table. -/
def DB.updateOrders (db : DB) (pred : Order → Bool) (f : Order → Order) : DB :=
  { db with orders := db.orders.map (fun o => if pred o then f o else o) }

/-- `db("orders").insert(...)`: appends a row under a fresh generated id. -/
def DB.insertOrder (db : DB) (mk : Nat → Order) : DB :=
  { db with orders := db.orders ++ [mk db.nextId], nextId := db.nextId + 1 }

/-- `db("order_events").insert(...)`. -/
def DB.insertEvent (db : DB) (e : OrderEvent) : DB :=
  { db with order_events := db.order_events ++ [e] }

/-- `db("reconciliation_issues").insert(...)`. -/
def DB.insertIssue (db : DB) (i : ReconciliationIssue) : DB :=
  { db with reconciliation_issues := db.reconciliation_issues ++ [i] }

/-- `_logOrderEvent(orderId, tradeId, eventType, eventData)` of the
execution service.  The payloads it serializes carry prices, quantities
and phase numbers but no venue order or leg id strings, so the id
abstraction of `event_data` is the empty list. -/
def DB.logOrderEvent (db : DB) (orderId : Option Nat) (tradeId : Nat)
    (eventType : String) : DB :=
  db.insertEvent { order_id := orderId, trade_id := tradeId,
                   event_type := eventType, event_data := [] }

/-! ## The external venue -/

/-- External data returned by venue (Alpaca) calls during one handler run:
the venue order id and status assigned to a newly placed OCO sell and to a
newly placed stop-loss sell, and an oracle telling which `cancelOrder`
requests throw. -/
structure VenueEnv where
  ocoId : String
  ocoStatus : String
  slId : String
  slStatus : String
  cancelFails : String → Bool

/-- Awaiting a fallible call and continuing with its result
(`match e with | error => rethrow | ok d => continue`). -/
def andThen (e : Except String DB) (f : DB → Except String DB) :
    Except String DB :=
  match e with
  | .error msg => .error msg
  | .ok d => f d

/-- Unwrap an `Except`-valued handler result, defaulting on error (the
shape of a caller whose catch block only logs). -/
def exceptDb (e : Except String DB) (dflt : DB) : DB :=
  match e with
  | .ok d => d
  | .error _ => dflt

theorem andThen_ok {e : Except String DB} {f : DB → Except String DB}
    {b : DB} : andThen e f = .ok b ↔ ∃ a, e = .ok a ∧ f a = .ok b := by
  cases e with
  | error m => simp [andThen]
  | ok d => simp [andThen]

/-! ## Trade execution service -/

/-- The OCO sell order row recorded by `placePhaseOrders` for a phase. -/
def ocoOrderRow (trade : Trade) (phase : TradePhase) (tradeId : Nat)
    (phaseNumber : ℤ) (env : VenueEnv) (rowId : Nat) : Order :=
  { id := rowId, trade_id := tradeId, alpaca_order_id := env.ocoId,
    client_order_id :=
      "RZE-P" ++ toString phaseNumber ++ "-OCO-" ++ trade.trade_uuid.take 8,
    symbol := trade.symbol, side := "sell", order_type := "limit",
    order_class := "oco", qty := phase.shares_to_sell,
    limit_price := some phase.take_profit_price,
    stop_price := some phase.stop_loss_price,
    phase := phaseNumber, purpose := "phase_tp",
    status := env.ocoStatus }

/-- The extra phase-1 stop-loss order row covering the non-phase-1
remaining shares. -/
def remainingSlRow (trade : Trade) (phase : TradePhase) (tradeId : Nat)
    (phaseNumber : ℤ) (env : VenueEnv) (rowId : Nat) : Order :=
  { id := rowId, trade_id := tradeId, alpaca_order_id := env.slId,
    client_order_id :=
      "RZE-P" ++ toString phaseNumber ++ "-SL-" ++ trade.trade_uuid.take 8,
    symbol := trade.symbol, side := "sell", order_type := "stop",
    order_class := "simple", qty := trade.total_shares - phase.shares_to_sell,
    stop_price := some phase.stop_loss_price,
    phase := phaseNumber, purpose := "remaining_sl",
    status := env.slStatus }

/-- `placePhaseOrders(tradeId, phaseNumber)`: marks the phase active,
places and records the phase's OCO sell (take-profit limit + stop-loss
stop legs at the phase's computed prices), and for phase 1 additionally a
stop-loss sell covering the non-phase-1 remaining shares when positive,
then logs a `phase_orders_placed` event. -/
def placePhaseOrders (db : DB) (tradeId : Nat) (phaseNumber : ℤ)
    (env : VenueEnv) : Except String DB :=
  match db.findTrade tradeId, db.findPhase tradeId phaseNumber with
  | some trade, some phase =>
    let db1 := db.updatePhases (fun p => decide (p.id = phase.id))
      (fun p => { p with status := "active" })
    let db2 := db1.insertOrder (ocoOrderRow trade phase tradeId phaseNumber env)
    let db3 :=
      if phaseNumber = 1 ∧ trade.total_shares - phase.shares_to_sell > 0 then
        db2.insertOrder (remainingSlRow trade phase tradeId phaseNumber env)
      else db2
    .ok (db3.logOrderEvent none tradeId "phase_orders_placed")
  | _, _ => .error "Trade or phase not found"

/-- `handleEntryFill(tradeId, fillPrice, filledQty)`: throws if the trade
is missing; otherwise (with no guard on the trade's current status)
overwrites `entry_price` with the fill price, sets status `active` and
phase 1, recomputes every phase's absolute take-profit / stop-loss price
from the actual fill price, places the phase 1 orders and logs an
`entry_filled` event. -/
def handleEntryFill (db : DB) (tradeId : Nat) (fillPrice : ℚ)
    (filledQty : ℤ) (env : VenueEnv) : Except String DB :=
  match db.findTrade tradeId with
  | none => .error "Trade not found"
  | some _trade =>
    let db1 := db.updateTrades (fun t => decide (t.id = tradeId))
      (fun t => { t with entry_price := fillPrice, status := "active",
                         current_phase := 1 })
    let db2 := db1.updatePhases (fun p => decide (p.trade_id = tradeId))
      (fun p => { p with
        take_profit_price := fillPrice * (1 + p.take_profit_pct / 100),
        stop_loss_price := fillPrice * (1 + p.stop_loss_pct / 100) })
    let _ := filledQty
    andThen (placePhaseOrders db2 tradeId 1 env) (fun db3 =>
      .ok (db3.logOrderEvent none tradeId "entry_filled"))

/-- The phase-pnl-bearing phases of a trade:
`db("trade_phases").where("trade_id", tradeId).whereNotNull("phase_pnl")`. -/
def DB.pnlPhases (db : DB) (tradeId : Nat) : List TradePhase :=
  db.trade_phases.filter (fun p =>
    decide (p.trade_id = tradeId ∧ p.phase_pnl ≠ none))

/-- `phases.reduce((sum, p) => sum + parseFloat(p.phase_pnl || 0), 0)`. -/
def totalPnlOf (phases : List TradePhase) : ℚ :=
  (phases.map (fun p => p.phase_pnl.getD 0)).sum

/-- The phase number of
`phases.filter(p => p.status === "completed").sort((a, b) => b.phase_number - a.phase_number)[0]`:
the greatest `phase_number` among the completed phases, if any. -/
def lastCompletedPhaseNumber (phases : List TradePhase) : Option ℤ :=
  (phases.filter (fun p => decide (p.status = "completed"))).foldr
    (fun p acc =>
      match acc with
      | none => some p.phase_number
      | some m => some (max p.phase_number m))
    none

/-- `lastCompletedPhase?.phase_number || 1`: JavaScript `||` maps both a
missing completed phase and phase number 0 to 1. -/
def exitPhaseOf (phases : List TradePhase) : ℤ :=
  match lastCompletedPhaseNumber phases with
  | none => 1
  | some n => if n = 0 then 1 else n

/-- `completeTrade(tradeId, exitReason)`: sums `phase_pnl` over the
trade's phases that have one recorded, derives the percentage P&L against
position size and the exit phase, marks the trade completed and logs a
`trade_completed` event.  There is no guard on the trade's current
status. -/
def completeTrade (db : DB) (tradeId : Nat) (exitReason : String) :
    Except String DB :=
  match db.findTrade tradeId with
  | none => .error "Trade not found"
  | some trade =>
    let phases := db.pnlPhases tradeId
    let totalPnl := totalPnlOf phases
    let pnlPct := totalPnl / trade.position_size * 100
    let exitPhase : ℤ := exitPhaseOf phases
    let db1 := db.updateTrades (fun t => decide (t.id = tradeId))
      (fun t => { t with status := "completed",
                         realized_pnl := some totalPnl,
                         realized_pnl_pct := some pnlPct,
                         exit_reason := some exitReason,
                         exit_phase := some exitPhase })
    .ok (db1.logOrderEvent none tradeId "trade_completed")

/-- The cancel loop of `handlePhaseTakeProfitHit`: for each order of the
snapshot not already cancelled or filled, calls the venue cancel (NOT
wrapped in try/catch there, so a venue failure propagates) and marks the
row cancelled. -/
def cancelOrdersStrict (env : VenueEnv) (db : DB) :
    List Order → Except String DB
  | [] => .ok db
  | o :: rest =>
    if o.status = "cancelled" ∨ o.status = "filled" then
      cancelOrdersStrict env db rest
    else if env.cancelFails o.alpaca_order_id then
      .error "cancelOrder failed"
    else
      cancelOrdersStrict env
        (db.updateOrders (fun x => decide (x.id = o.id))
          (fun x => { x with status := "cancelled" }))
        rest

/-- `handlePhaseTakeProfitHit(tradeId, phaseNumber, fillPrice)`: records
the phase's P&L `(fillPrice - entry_price) * shares_to_sell`, marks it
completed, decrements the trade's remaining shares by the phase's share
allocation, cancels the phase's now-redundant `remaining_sl` orders, then
completes the trade when `phaseNumber >= 4` or no shares remain and
otherwise advances to the next phase and places its orders; finally logs a
`phase_tp_hit` event. -/
def handlePhaseTakeProfitHit (db : DB) (tradeId : Nat) (phaseNumber : ℤ)
    (fillPrice : ℚ) (env : VenueEnv) : Except String DB :=
  match db.findTrade tradeId, db.findPhase tradeId phaseNumber with
  | some trade, some currentPhase =>
    let phasePnl := (fillPrice - trade.entry_price) * currentPhase.shares_to_sell
    let db1 := db.updatePhases (fun p => decide (p.id = currentPhase.id))
      (fun p => { p with status := "completed", exit_price := some fillPrice,
                         exit_type := some "take_profit",
                         phase_pnl := some phasePnl })
    let newRemainingShares := trade.remaining_shares - currentPhase.shares_to_sell
    let db2 := db1.updateTrades (fun t => decide (t.id = tradeId))
      (fun t => { t with remaining_shares := newRemainingShares })
    let oldSlOrders := db2.orders.filter (fun o =>
      decide (o.trade_id = tradeId ∧ o.phase = phaseNumber ∧
        o.purpose = "remaining_sl"))
    andThen (cancelOrdersStrict env db2 oldSlOrders) (fun db3 =>
      andThen
        (if phaseNumber ≥ 4 ∨ newRemainingShares ≤ 0 then
          completeTrade db3 tradeId "phase_4_complete"
        else
          placePhaseOrders
            (db3.updateTrades (fun t => decide (t.id = tradeId))
              (fun t => { t with current_phase := phaseNumber + 1 }))
            tradeId (phaseNumber + 1) env)
        (fun db4 => .ok (db4.logOrderEvent none tradeId "phase_tp_hit")))
  | _, _ => .error "Trade or phase not found"

/-- The cancel loop of `handlePhaseStopLossHit`: each venue cancel is
wrapped in try/catch with an empty catch, so a venue failure is swallowed
and the row is marked cancelled regardless of the venue outcome
(`env.cancelFails` is consulted and its answer discarded). -/
def cancelOrdersSwallow (env : VenueEnv) (db : DB)
    (orders : List Order) : DB :=
  orders.foldl
    (fun acc o =>
      let _ := env.cancelFails o.alpaca_order_id
      acc.updateOrders (fun x => decide (x.id = o.id))
        (fun x => { x with status := "cancelled" }))
    db

/-- `handlePhaseStopLossHit(tradeId, phaseNumber, fillPrice, filledQty)`:
cancels every order of the trade not already filled or cancelled
(swallowing venue cancel failures), marks the phase completed with
`exit_type = "stop_loss"` and P&L `(fillPrice - entry_price) * filledQty`,
completes the trade with exit reason `"stopped_out"` and logs a
`phase_sl_hit` event.  No other phase row and no `remaining_shares` field
is touched. -/
def handlePhaseStopLossHit (db : DB) (tradeId : Nat) (phaseNumber : ℤ)
    (fillPrice : ℚ) (filledQty : ℤ) (env : VenueEnv) : Except String DB :=
  match db.findTrade tradeId with
  | none => .error "Trade not found"
  | some trade =>
    let openOrders := db.orders.filter (fun o =>
      decide (o.trade_id = tradeId ∧ o.status ≠ "filled" ∧
        o.status ≠ "cancelled"))
    let db1 := cancelOrdersSwallow env db openOrders
    let phasePnl := (fillPrice - trade.entry_price) * filledQty
    let db2 := db1.updatePhases (fun p =>
        decide (p.trade_id = tradeId ∧ p.phase_number = phaseNumber))
      (fun p => { p with status := "completed", exit_price := some fillPrice,
                         exit_type := some "stop_loss",
                         phase_pnl := some phasePnl })
    andThen (completeTrade db2 tradeId "stopped_out") (fun db3 =>
      .ok (db3.logOrderEvent none tradeId "phase_sl_hit"))

/-! ## Trade monitor: push path and poll path -/

/-- The order snapshot carried by a push update from the venue's order
event stream.  `payload_leg_ids` are the OCO leg id strings nested in the
raw snapshot, kept for the `event_data` id abstraction. -/
structure PushOrder where
  id : String
  status : String
  symbol : String
  side : String
  qty : ℤ
  filled_qty : ℤ
  filled_avg_price : Option ℚ := none
  payload_leg_ids : List String := []
  deriving DecidableEq, Repr

/-- One `{event, order}` message of the venue's trade-update stream. -/
structure PushUpdate where
  event : String
  order : PushOrder
  deriving DecidableEq, Repr

/-- `TradeMonitor.handleOrderFill(dbOrder, alpacaOrder)`: dispatches the
fill to the execution-engine handler selected by the ledger order's
`purpose`; an unknown purpose falls through the switch and does nothing. -/
def handleOrderFill (db : DB) (dbOrder : Order) (fillPrice : ℚ)
    (filledQty : ℤ) (env : VenueEnv) : Except String DB :=
  match dbOrder.purpose with
  | "entry" => handleEntryFill db dbOrder.trade_id fillPrice filledQty env
  | "phase_tp" =>
    handlePhaseTakeProfitHit db dbOrder.trade_id dbOrder.phase fillPrice env
  | "phase_sl" => handlePhaseStopLossHit db dbOrder.trade_id dbOrder.phase
      fillPrice filledQty env
  | "remaining_sl" => handlePhaseStopLossHit db dbOrder.trade_id dbOrder.phase
      fillPrice filledQty env
  | _ => .ok db

/-- `TradeMonitor.handleOrderUpdate(update)`, the push ingestion path:
looks up the ledger order by venue order id (silently ignoring unknown
orders), mirrors the venue status / filled quantity / average price onto
the row, appends an `OrderEvent` whose payload is the raw update (its id
abstraction: the order id plus any nested leg ids), broadcasts to the UI
(no ledger effect) and dispatches by event type — `fill` runs the
purpose-selected execution handler, `rejected` marks the order rejected,
the rest are logged only.  Note there is no deduplication check of any
kind before the event insert or the dispatch.  The surrounding try/catch
logs a handler error without rethrowing. -/
def handleOrderUpdate (db : DB) (update : PushUpdate) (env : VenueEnv) : DB :=
  match db.orders.find? (fun o => decide (o.alpaca_order_id = update.order.id)) with
  | none => db
  | some dbOrder =>
    let db1 := db.updateOrders (fun o => decide (o.id = dbOrder.id))
      (fun o => { o with status := update.order.status,
                         filled_qty := some update.order.filled_qty,
                         filled_avg_price := update.order.filled_avg_price })
    let db2 := db1.insertEvent
      { order_id := some dbOrder.id, trade_id := dbOrder.trade_id,
        event_type := update.event,
        event_data := update.order.id :: update.order.payload_leg_ids }
    if update.event = "fill" then
      exceptDb
        (handleOrderFill db2 dbOrder
          (update.order.filled_avg_price.getD 0) update.order.filled_qty env)
        db2
    else if update.event = "rejected" then
      db2.updateOrders (fun o => decide (o.id = dbOrder.id))
        (fun o => { o with status := "rejected" })
    else db2

/-- The ledger statuses `syncOrders` fetches as "currently open". -/
def syncOpenStatuses : List String :=
  ["new", "accepted", "pending_new", "partially_filled", "filled"]

/-- `TradeMonitor.syncOrders()`, the poll ingestion path: fetches the
ledger's open orders, and — when that list is non-empty — immediately
executes `console.log(dbOrdersCount, "dbOrdersCount")`.  The identifier
`dbOrdersCount` is not defined anywhere in the module, so that line throws
a `ReferenceError` and the rest of the function (the venue fetch, the
cross-reference and the update-and-dispatch loop) is unreachable. -/
def syncOrders (db : DB) : Except String DB :=
  let dbOrders := db.orders.filter (fun o =>
    decide (o.status ∈ syncOpenStatuses))
  if dbOrders.isEmpty then .ok db
  else .error "ReferenceError: dbOrdersCount is not defined"

/-! ## Trade reconciliation service (the enhanced revision) -/

/-- One leg of a venue OCO order as reported by the venue order history. -/
structure VenueLeg where
  id : String
  type : String
  status : String
  filled_qty : ℤ
  filled_avg_price : ℚ
  deriving DecidableEq, Repr

/-- One order of the venue order history (`GetOrders("all", 500)`). -/
structure VenueOrder where
  id : String
  status : String
  order_class : String
  legs : List VenueLeg
  filled_qty : ℤ
  filled_avg_price : ℚ
  deriving DecidableEq, Repr

/-- `isLegFillRecorded(tradeId, legId)`: an order event of the trade with
event type `fill` or `partial_fill` whose serialized `event_data` contains
the leg id (SQL `LIKE '%legId%'`, here membership in the id abstraction). -/
def isLegFillRecorded (db : DB) (tradeId : Nat) (legId : String) : Bool :=
  db.order_events.any (fun e =>
    decide (e.trade_id = tradeId) &&
    (decide (e.event_type = "fill") || decide (e.event_type = "partial_fill")) &&
    e.event_data.contains legId)

/-- One entry of the `missedFills` list built by `findMissedEvents`. -/
inductive MissedFill where
  | parent (order : VenueOrder) (dbOrder : Order)
  | ocoLeg (order : VenueOrder) (leg : VenueLeg) (dbOrder : Order)
  deriving DecidableEq, Repr

/-- Whether a missed-fill entry is the replay of the given venue leg. -/
def MissedFill.refsLeg (mf : MissedFill) (legId : String) : Bool :=
  match mf with
  | .parent _ _ => false
  | .ocoLeg _ leg _ => decide (leg.id = legId)

/-- The body of `findMissedEvents`'s scanning loop for one relevant venue
order: pushes a `parent` entry when the venue shows it filled but the
ledger does not, an `ocoLeg` entry for every filled leg whose fill is not
yet recorded, and — for a canceled OCO — checks the legs a second time
(pushing a second copy of any such leg). -/
def missedFillsForOrder (db : DB) (trade : Trade) (dbOrders : List Order)
    (alpacaOrder : VenueOrder) : List MissedFill :=
  match dbOrders.find? (fun o => decide (o.alpaca_order_id = alpacaOrder.id)) with
  | none => []
  | some dbOrder =>
    let legHits : List MissedFill := alpacaOrder.legs.filterMap (fun leg =>
      if leg.status = "filled" ∧ ¬ (isLegFillRecorded db trade.id leg.id = true)
      then some (.ocoLeg alpacaOrder leg dbOrder) else none)
    (if alpacaOrder.status = "filled" ∧ dbOrder.status ≠ "filled"
     then [.parent alpacaOrder dbOrder] else [])
    ++ (if alpacaOrder.order_class = "oco" then legHits else [])
    ++ (if alpacaOrder.order_class = "oco" ∧ alpacaOrder.status = "canceled"
        then legHits else [])

/-- `findOrphanedOCOLegs(trade, alpacaOrders, missedFills)`: for every
active or completed phase of the trade, looks up its recorded `phase_tp`
OCO orders, finds each in the full venue order list and pushes every
filled, unrecorded leg. -/
def orphanedOcoLegFills (db : DB) (trade : Trade)
    (alpacaOrders : List VenueOrder) : List MissedFill :=
  let phases := db.trade_phases.filter (fun p =>
    decide (p.trade_id = trade.id ∧ (p.status = "active" ∨ p.status = "completed")))
  phases.flatMap (fun phase =>
    let ocoOrders := db.orders.filter (fun o =>
      decide (o.trade_id = trade.id ∧ o.phase = phase.phase_number ∧
        o.purpose = "phase_tp" ∧ o.order_class = "oco"))
    ocoOrders.flatMap (fun ocoOrder =>
      match alpacaOrders.find? (fun a => decide (a.id = ocoOrder.alpaca_order_id)) with
      | none => []
      | some alpacaOrder =>
        alpacaOrder.legs.filterMap (fun leg =>
          if leg.status = "filled" ∧ ¬ (isLegFillRecorded db trade.id leg.id = true)
          then some (.ocoLeg alpacaOrder leg ocoOrder) else none)))

/-- The complete discovery stage of `findMissedEvents`: the scan over the
venue orders the trade's ledger already references, falling back to the
orphaned-OCO-leg search only when the scan found nothing. -/
def discoverMissedFills (db : DB) (trade : Trade)
    (alpacaOrders : List VenueOrder) : List MissedFill :=
  let dbOrders := db.orders.filter (fun o => decide (o.trade_id = trade.id))
  let tradeOrderIds := dbOrders.map (fun o => o.alpaca_order_id)
  let relevantOrders := alpacaOrders.filter (fun a => tradeOrderIds.contains a.id)
  let scanned := relevantOrders.flatMap (missedFillsForOrder db trade dbOrders)
  if scanned.isEmpty then orphanedOcoLegFills db trade alpacaOrders else scanned

/-- `handleMissedFillEvent(dbOrder, alpacaOrder)`: the reconciliation
service's copy of the purpose-based dispatch (with an explicit default
branch that only warns). -/
def handleMissedFillEvent (db : DB) (dbOrder : Order) (fillPrice : ℚ)
    (filledQty : ℤ) (env : VenueEnv) : Except String DB :=
  match dbOrder.purpose with
  | "entry" => handleEntryFill db dbOrder.trade_id fillPrice filledQty env
  | "phase_tp" =>
    handlePhaseTakeProfitHit db dbOrder.trade_id dbOrder.phase fillPrice env
  | "phase_sl" => handlePhaseStopLossHit db dbOrder.trade_id dbOrder.phase
      fillPrice filledQty env
  | "remaining_sl" => handlePhaseStopLossHit db dbOrder.trade_id dbOrder.phase
      fillPrice filledQty env
  | _ => .ok db

/-- `processMissedFill(trade, missedFill)` of the enhanced revision: a
parent fill updates the ledger order row and replays it; an OCO leg fill
builds a synthetic order whose purpose is derived from the leg type
(`"stop"` means `phase_sl`, otherwise `phase_tp`) and replays it.  Note
the enhanced revision does NOT insert an `order_events` row for the
replayed leg.  Its try/catch only logs, so a handler error leaves the
database as it was. -/
def processMissedFill (db : DB) (trade : Trade) (mf : MissedFill)
    (env : VenueEnv) : DB :=
  let _ := trade
  match mf with
  | .parent order dbOrder =>
    let db1 := db.updateOrders (fun o => decide (o.id = dbOrder.id))
      (fun o => { o with status := "filled",
                         filled_qty := some order.filled_qty,
                         filled_avg_price := some order.filled_avg_price })
    exceptDb
      (handleMissedFillEvent db1 dbOrder order.filled_avg_price
        order.filled_qty env)
      db1
  | .ocoLeg _ leg dbOrder =>
    let purpose := if leg.type = "stop" then "phase_sl" else "phase_tp"
    let syntheticOrder := { dbOrder with
      filled_qty := some leg.filled_qty,
      filled_avg_price := some leg.filled_avg_price,
      purpose := purpose }
    exceptDb
      (handleMissedFillEvent db syntheticOrder leg.filled_avg_price
        leg.filled_qty env)
      db

/-- `flagForManualReview(trade, expectedShares, actualShares)` of the
enhanced revision: inserts one pending-review share-discrepancy issue. -/
def flagForManualReview (db : DB) (trade : Trade)
    (expectedShares actualShares : ℤ) : DB :=
  db.insertIssue
    { trade_id := trade.id, issue_type := "share_discrepancy",
      expected_shares := expectedShares, actual_shares := actualShares,
      discrepancy := expectedShares - actualShares,
      status := "pending_review" }

/-- `findMissedEvents(trade, expectedShares, actualShares)`: runs the
discovery stage against the venue order history; when nothing is found
flags the trade for manual review, otherwise processes each discovered
missed fill in order. -/
def findMissedEvents (db : DB) (trade : Trade)
    (expectedShares actualShares : ℤ) (alpacaOrders : List VenueOrder)
    (env : VenueEnv) : DB :=
  let missedFills := discoverMissedFills db trade alpacaOrders
  if missedFills.isEmpty then
    flagForManualReview db trade expectedShares actualShares
  else
    missedFills.foldl (fun acc mf => processMissedFill acc trade mf env) db

/-- `reconcileTrade(trade, positionMap)`: compares the ledger's
`remaining_shares` against the venue's reported position quantity for the
trade's symbol (0 when the venue reports no position); equal means no
action, otherwise the missed-event search runs. -/
def reconcileTrade (db : DB) (trade : Trade)
    (positions : List (String × ℤ)) (alpacaOrders : List VenueOrder)
    (env : VenueEnv) : DB :=
  let dbRemainingShares : ℤ := trade.remaining_shares
  let actualShares : ℤ :=
    ((positions.find? (fun p => decide (p.1 = trade.symbol))).map
      (fun p => p.2)).getD 0
  if dbRemainingShares = actualShares then db
  else findMissedEvents db trade dbRemainingShares actualShares alpacaOrders env

/-! ## Generic list lemmas -/

/-- `find?` commutes with a map whose function does not change whether the
predicate holds. -/
theorem find?_map_eq_map_find? {α : Type} (l : List α) (p : α → Bool)
    (f : α → α) (hp : ∀ x, p (f x) = p x) :
    (l.map f).find? p = (l.find? p).map f := by
  rw [List.find?_map]
  have : p ∘ f = p := funext hp
  rw [this]

/-- `find?` is unchanged by a map that preserves the predicate and fixes
every element satisfying it. -/
theorem find?_map_congr {α : Type} (l : List α) (p : α → Bool) (f : α → α)
    (hp : ∀ x ∈ l, p (f x) = p x) (hfix : ∀ x ∈ l, p x = true → f x = x) :
    (l.map f).find? p = l.find? p := by
  induction l with
  | nil => rfl
  | cons a l ih =>
    simp only [List.map_cons, List.find?_cons]
    rw [hp a (List.mem_cons_self a l)]
    cases hpa : p a with
    | false =>
      exact ih (fun x hx => hp x (List.mem_cons_of_mem a hx))
        (fun x hx => hfix x (List.mem_cons_of_mem a hx))
    | true => rw [hfix a (List.mem_cons_self a l) hpa]

/-! ## Frame and effect lemmas for the execution service -/

/-- Unfolding `placePhaseOrders` on the success path: the trades, issues
and prior orders are untouched; the phase row found for `(tradeId,
phaseNumber)` is marked active; the new orders are the phase's OCO row,
optionally followed by the phase-1 remaining-shares stop row; one
`phase_orders_placed` event is appended. -/
theorem placePhaseOrders_ok_spec (db : DB) (tid : Nat) (n : ℤ)
    (env : VenueEnv) (db' : DB)
    (h : placePhaseOrders db tid n env = .ok db') :
    ∃ trade phase, db.findTrade tid = some trade ∧
      db.findPhase tid n = some phase ∧
      db'.trades = db.trades ∧
      db'.reconciliation_issues = db.reconciliation_issues ∧
      db'.order_events = db.order_events ++
        [{ order_id := none, trade_id := tid,
           event_type := "phase_orders_placed", event_data := [] }] ∧
      db'.trade_phases = db.trade_phases.map (fun p =>
        if decide (p.id = phase.id) = true then { p with status := "active" }
        else p) ∧
      ∃ rest, db'.orders =
          db.orders ++ (ocoOrderRow trade phase tid n env db.nextId :: rest) ∧
        (rest = [] ∨
          rest = [remainingSlRow trade phase tid n env (db.nextId + 1)]) := by
  unfold placePhaseOrders at h
  cases hT : db.findTrade tid with
  | none => rw [hT] at h; exact absurd h (by simp)
  | some trade =>
    cases hP : db.findPhase tid n with
    | none => rw [hT, hP] at h; exact absurd h (by simp)
    | some phase =>
      rw [hT, hP] at h
      simp only [Except.ok.injEq] at h
      subst h
      refine ⟨trade, phase, rfl, rfl, ?_⟩
      by_cases hc : n = 1 ∧ trade.total_shares - phase.shares_to_sell > 0
      · rw [if_pos hc]
        exact ⟨rfl, rfl, rfl, rfl,
          [remainingSlRow trade phase tid n env (db.nextId + 1)],
          by simp [DB.logOrderEvent, DB.insertEvent, DB.insertOrder,
            DB.updatePhases], Or.inr rfl⟩
      · rw [if_neg hc]
        exact ⟨rfl, rfl, rfl, rfl, [],
          by simp [DB.logOrderEvent, DB.insertEvent, DB.insertOrder,
            DB.updatePhases], Or.inl rfl⟩

/-- Unfolding `completeTrade` on the success path: phases, orders and
issues are untouched; every trade row with the id gets status `completed`,
`realized_pnl` the sum of recorded phase P&Ls, the percentage P&L against
the found trade's position size, the exit reason, and the exit phase; one
`trade_completed` event is appended. -/
theorem completeTrade_ok_spec (db : DB) (tid : Nat) (reason : String)
    (db' : DB) (h : completeTrade db tid reason = .ok db') :
    ∃ t, db.findTrade tid = some t ∧
      db'.trade_phases = db.trade_phases ∧
      db'.orders = db.orders ∧
      db'.reconciliation_issues = db.reconciliation_issues ∧
      db'.nextId = db.nextId ∧
      db'.order_events = db.order_events ++
        [{ order_id := none, trade_id := tid,
           event_type := "trade_completed", event_data := [] }] ∧
      db'.trades = db.trades.map (fun u =>
        if decide (u.id = tid) = true then
          { u with status := "completed",
                   realized_pnl := some (totalPnlOf (db.pnlPhases tid)),
                   realized_pnl_pct := some
                     (totalPnlOf (db.pnlPhases tid) / t.position_size * 100),
                   exit_reason := some reason,
                   exit_phase := some (exitPhaseOf (db.pnlPhases tid)) }
        else u) := by
  unfold completeTrade at h
  cases hT : db.findTrade tid with
  | none => rw [hT] at h; exact absurd h (by simp)
  | some t =>
    rw [hT] at h
    simp only [Except.ok.injEq] at h
    subst h
    exact ⟨t, rfl, rfl, rfl, rfl, rfl, rfl, rfl⟩

/-- Some order row with id `i` is recorded cancelled in the ledger. -/
def hasCancelledRow (db : DB) (i : Nat) : Prop :=
  ∃ o ∈ db.orders, o.id = i ∧ o.status = "cancelled"

/-- Marking further rows cancelled never un-cancels a cancelled row. -/
theorem hasCancelledRow_updateCancel (db : DB) (pred : Order → Bool)
    (i : Nat) (h : hasCancelledRow db i) :
    hasCancelledRow
      (db.updateOrders pred (fun x => { x with status := "cancelled" })) i := by
  obtain ⟨o, ho, hid, hst⟩ := h
  refine ⟨if pred o then { o with status := "cancelled" } else o,
    List.mem_map_of_mem _ ho, ?_, ?_⟩
  · by_cases hp : pred o <;> simp [hp, hid]
  · by_cases hp : pred o <;> simp [hp, hst]

/-- Row ids survive a cancel-update. -/
theorem exists_id_updateCancel (db : DB) (pred : Order → Bool) (i : Nat)
    (h : ∃ x ∈ db.orders, x.id = i) :
    ∃ x ∈ (db.updateOrders pred
      (fun x => { x with status := "cancelled" })).orders, x.id = i := by
  obtain ⟨x, hx, hxi⟩ := h
  refine ⟨if pred x then { x with status := "cancelled" } else x,
    List.mem_map_of_mem _ hx, ?_⟩
  by_cases hp : pred x <;> simp [hp, hxi]

/-- The strict cancel loop touches only the `orders` table. -/
theorem cancelOrdersStrict_ok_frame (env : VenueEnv) (l : List Order)
    (db db' : DB) (h : cancelOrdersStrict env db l = .ok db') :
    db'.trades = db.trades ∧ db'.trade_phases = db.trade_phases ∧
    db'.order_events = db.order_events ∧
    db'.reconciliation_issues = db.reconciliation_issues ∧
    db'.nextId = db.nextId := by
  induction l generalizing db with
  | nil =>
    unfold cancelOrdersStrict at h
    simp only [Except.ok.injEq] at h
    subst h
    exact ⟨rfl, rfl, rfl, rfl, rfl⟩
  | cons a l ih =>
    unfold cancelOrdersStrict at h
    by_cases h1 : a.status = "cancelled" ∨ a.status = "filled"
    · rw [if_pos h1] at h; exact ih _ h
    · rw [if_neg h1] at h
      by_cases h2 : env.cancelFails a.alpaca_order_id = true
      · rw [if_pos h2] at h; exact absurd h (by simp)
      · rw [if_neg h2] at h
        simpa [DB.updateOrders] using ih _ h

/-- The strict cancel loop preserves cancelled rows. -/
theorem cancelOrdersStrict_preserves (env : VenueEnv) (l : List Order)
    (db db' : DB) (h : cancelOrdersStrict env db l = .ok db') (i : Nat)
    (hi : hasCancelledRow db i) : hasCancelledRow db' i := by
  induction l generalizing db with
  | nil =>
    unfold cancelOrdersStrict at h
    simp only [Except.ok.injEq] at h
    subst h; exact hi
  | cons a l ih =>
    unfold cancelOrdersStrict at h
    by_cases h1 : a.status = "cancelled" ∨ a.status = "filled"
    · rw [if_pos h1] at h; exact ih _ h hi
    · rw [if_neg h1] at h
      by_cases h2 : env.cancelFails a.alpaca_order_id = true
      · rw [if_pos h2] at h; exact absurd h (by simp)
      · rw [if_neg h2] at h
        exact ih _ h (hasCancelledRow_updateCancel _ _ _ hi)

/-- The strict cancel loop, when it returns, has recorded every
not-yet-terminal order of its snapshot as cancelled. -/
theorem cancelOrdersStrict_cancels (env : VenueEnv) (l : List Order)
    (db db' : DB) (h : cancelOrdersStrict env db l = .ok db')
    (o : Order) (ho : o ∈ l)
    (hs : ¬ (o.status = "cancelled" ∨ o.status = "filled"))
    (hex : ∃ x ∈ db.orders, x.id = o.id) :
    hasCancelledRow db' o.id := by
  induction l generalizing db with
  | nil => exact absurd ho (List.not_mem_nil o)
  | cons a l ih =>
    unfold cancelOrdersStrict at h
    by_cases h1 : a.status = "cancelled" ∨ a.status = "filled"
    · rw [if_pos h1] at h
      rcases List.mem_cons.mp ho with rfl | hol
      · exact absurd h1 hs
      · exact ih _ h hol hex
    · rw [if_neg h1] at h
      by_cases h2 : env.cancelFails a.alpaca_order_id = true
      · rw [if_pos h2] at h; exact absurd h (by simp)
      · rw [if_neg h2] at h
        rcases List.mem_cons.mp ho with rfl | hol
        · apply cancelOrdersStrict_preserves env l _ _ h
          obtain ⟨x, hx, hxi⟩ := hex
          refine ⟨{ x with status := "cancelled" }, ?_, by simp [hxi], rfl⟩
          have : (if decide (x.id = o.id) = true then
              { x with status := "cancelled" } else x) ∈
              (db.updateOrders (fun y => decide (y.id = o.id))
                (fun y => { y with status := "cancelled" })).orders :=
            List.mem_map_of_mem _ hx
          rwa [if_pos (by simp [hxi])] at this
        · exact ih _ h hol (exists_id_updateCancel _ _ _ hex)

/-- The swallowing cancel loop touches only the `orders` table. -/
theorem cancelOrdersSwallow_frame (env : VenueEnv) (l : List Order)
    (db : DB) :
    (cancelOrdersSwallow env db l).trades = db.trades ∧
    (cancelOrdersSwallow env db l).trade_phases = db.trade_phases ∧
    (cancelOrdersSwallow env db l).order_events = db.order_events ∧
    (cancelOrdersSwallow env db l).reconciliation_issues =
      db.reconciliation_issues ∧
    (cancelOrdersSwallow env db l).nextId = db.nextId := by
  induction l generalizing db with
  | nil => exact ⟨rfl, rfl, rfl, rfl, rfl⟩
  | cons a l ih =>
    have h := ih (db.updateOrders (fun x => decide (x.id = a.id))
      (fun x => { x with status := "cancelled" }))
    simpa [cancelOrdersSwallow, DB.updateOrders] using h

/-- The swallowing cancel loop preserves cancelled rows. -/
theorem cancelOrdersSwallow_preserves (env : VenueEnv) (l : List Order)
    (db : DB) (i : Nat) (hi : hasCancelledRow db i) :
    hasCancelledRow (cancelOrdersSwallow env db l) i := by
  induction l generalizing db with
  | nil => exact hi
  | cons a l ih =>
    have h := ih (db.updateOrders (fun x => decide (x.id = a.id))
      (fun x => { x with status := "cancelled" }))
      (hasCancelledRow_updateCancel _ _ _ hi)
    simpa [cancelOrdersSwallow] using h

/-- Row ids survive the swallowing cancel loop. -/
theorem exists_id_cancelOrdersSwallow (env : VenueEnv) (l : List Order)
    (db : DB) (i : Nat) (h : ∃ x ∈ db.orders, x.id = i) :
    ∃ x ∈ (cancelOrdersSwallow env db l).orders, x.id = i := by
  induction l generalizing db with
  | nil => exact h
  | cons a l ih =>
    have h2 := ih (db.updateOrders (fun x => decide (x.id = a.id))
      (fun x => { x with status := "cancelled" }))
      (exists_id_updateCancel _ _ _ h)
    simpa [cancelOrdersSwallow] using h2

/-- The swallowing cancel loop records every order of its snapshot as
cancelled — whatever the venue answered. -/
theorem cancelOrdersSwallow_cancels (env : VenueEnv) (l : List Order)
    (db : DB) (o : Order) (ho : o ∈ l)
    (hex : ∃ x ∈ db.orders, x.id = o.id) :
    hasCancelledRow (cancelOrdersSwallow env db l) o.id := by
  induction l generalizing db with
  | nil => exact absurd ho (List.not_mem_nil o)
  | cons a l ih =>
    rcases List.mem_cons.mp ho with rfl | hol
    · have base : hasCancelledRow
          (db.updateOrders (fun y => decide (y.id = o.id))
            (fun y => { y with status := "cancelled" })) o.id := by
        obtain ⟨x, hx, hxi⟩ := hex
        refine ⟨{ x with status := "cancelled" }, ?_, by simp [hxi], rfl⟩
        have : (if decide (x.id = o.id) = true then
            { x with status := "cancelled" } else x) ∈
            (db.updateOrders (fun y => decide (y.id = o.id))
              (fun y => { y with status := "cancelled" })).orders :=
          List.mem_map_of_mem _ hx
        rwa [if_pos (by simp [hxi])] at this
      have h2 := cancelOrdersSwallow_preserves env l _ _ base
      simpa [cancelOrdersSwallow] using h2
    · have h2 := ih (db.updateOrders (fun x => decide (x.id = a.id))
        (fun x => { x with status := "cancelled" }))
        hol (exists_id_updateCancel _ _ _ hex)
      simpa [cancelOrdersSwallow] using h2

/-- `hasCancelledRow` only looks at the orders table. -/
theorem hasCancelledRow_congr {db db' : DB} (he : db'.orders = db.orders)
    {i : Nat} (h : hasCancelledRow db i) : hasCancelledRow db' i := by
  obtain ⟨o, ho, h1, h2⟩ := h
  exact ⟨o, he ▸ ho, h1, h2⟩

/-- `hasCancelledRow` survives appending further orders. -/
theorem hasCancelledRow_append {db db' : DB} (xs : List Order)
    (he : db'.orders = db.orders ++ xs) {i : Nat}
    (h : hasCancelledRow db i) : hasCancelledRow db' i := by
  obtain ⟨o, ho, h1, h2⟩ := h
  exact ⟨o, he ▸ List.mem_append_left xs ho, h1, h2⟩

/-- Unfolding `handlePhaseStopLossHit` on the success path: issues are
untouched; every non-terminal order of the trade is recorded cancelled,
whatever the venue answered to the cancel requests; exactly the `(tradeId,
phaseNumber)` phase rows are completed as `stop_loss` with P&L
`(fillPrice - entry_price) * filledQty`; the trade ends `completed` with
exit reason `stopped_out`; and NO trade row's `remaining_shares` changes. -/
theorem handlePhaseStopLossHit_ok_spec (db : DB) (tid : Nat) (n : ℤ)
    (fp : ℚ) (qty : ℤ) (env : VenueEnv) (db' : DB)
    (h : handlePhaseStopLossHit db tid n fp qty env = .ok db') :
    ∃ trade, db.findTrade tid = some trade ∧
      db'.reconciliation_issues = db.reconciliation_issues ∧
      (∀ o ∈ db.orders, o.trade_id = tid → o.status ≠ "filled" →
        o.status ≠ "cancelled" → hasCancelledRow db' o.id) ∧
      db'.trade_phases = db.trade_phases.map (fun p =>
        if decide (p.trade_id = tid ∧ p.phase_number = n) = true then
          { p with status := "completed", exit_price := some fp,
                   exit_type := some "stop_loss",
                   phase_pnl := some ((fp - trade.entry_price) * qty) }
        else p) ∧
      (db'.findTrade tid).map (fun t => t.status) = some "completed" ∧
      (db'.findTrade tid).map (fun t => t.exit_reason) =
        some (some "stopped_out") ∧
      (db'.findTrade tid).map (fun t => t.remaining_shares) =
        some trade.remaining_shares ∧
      (∀ t' ∈ db'.trades, ∃ t ∈ db.trades,
        t'.id = t.id ∧ t'.remaining_shares = t.remaining_shares) := by
  unfold handlePhaseStopLossHit at h
  cases hT : db.findTrade tid with
  | none => rw [hT] at h; exact absurd h (by simp)
  | some trade =>
    rw [hT] at h
    simp only [andThen_ok, Except.ok.injEq] at h
    obtain ⟨db3, hc, hdb'⟩ := h
    subst hdb'
    obtain ⟨t2, hT2, ePh, eOrd, eIs, _eNx, _eEv, eTr⟩ :=
      completeTrade_ok_spec _ _ _ _ hc
    -- the snapshot of open orders and the two intermediate ledgers
    have htid : decide (trade.id = tid) = true := by
      have := List.find?_some
        (show db.trades.find? (fun t => decide (t.id = tid)) = some trade
          from hT)
      simpa using this
    -- the pre-completion ledger's trades are the original trades
    have hBtr : ((cancelOrdersSwallow env db (db.orders.filter (fun o =>
        decide (o.trade_id = tid ∧ o.status ≠ "filled" ∧
          o.status ≠ "cancelled")))).updatePhases
        (fun p => decide (p.trade_id = tid ∧ p.phase_number = n))
        (fun p => { p with
          status := "completed", exit_price := some fp,
          exit_type := some "stop_loss",
          phase_pnl := some ((fp - trade.entry_price) * qty) })).trades =
        db.trades := by
      simp [DB.updatePhases,
        (cancelOrdersSwallow_frame env _ db).1]
    have ht2 : t2 = trade := by
      have : (db.findTrade tid).map id = some t2 := by
        rw [← hT2]
        unfold DB.findTrade
        rw [hBtr]
        simp
      rw [hT] at this
      simpa using this.symm
    subst ht2
    refine ⟨t2, rfl, ?_, ?_, ?_, ?_, ?_, ?_, ?_⟩
    · -- issues unchanged
      rw [show (db3.logOrderEvent none tid
          "phase_sl_hit").reconciliation_issues = db3.reconciliation_issues
          from rfl, eIs]
      simp [DB.updatePhases, (cancelOrdersSwallow_frame env _ db).2.2.2.1]
    · -- every non-terminal order of the trade ends cancelled
      intro o ho h1 h2 h3
      have hmem : o ∈ db.orders.filter (fun o =>
          decide (o.trade_id = tid ∧ o.status ≠ "filled" ∧
            o.status ≠ "cancelled")) := by
        rw [List.mem_filter]
        exact ⟨ho, by simp [h1, h2, h3]⟩
      have hS : hasCancelledRow (cancelOrdersSwallow env db
          (db.orders.filter (fun o =>
            decide (o.trade_id = tid ∧ o.status ≠ "filled" ∧
              o.status ≠ "cancelled")))) o.id :=
        cancelOrdersSwallow_cancels env _ db o hmem ⟨o, ho, rfl⟩
      obtain ⟨x, hx, hxi, hxs⟩ := hS
      refine ⟨x, ?_, hxi, hxs⟩
      show x ∈ db3.orders
      rw [eOrd]
      simpa [DB.updatePhases] using hx
    · -- the phase-row update
      rw [show (db3.logOrderEvent none tid "phase_sl_hit").trade_phases =
          db3.trade_phases from rfl, ePh]
      simp [DB.updatePhases, (cancelOrdersSwallow_frame env _ db).2.1]
    · -- trade status completed
      show ((db3.logOrderEvent none tid "phase_sl_hit").findTrade tid).map
        (fun t => t.status) = some "completed"
      unfold DB.findTrade
      rw [show (db3.logOrderEvent none tid "phase_sl_hit").trades = db3.trades
        from rfl, eTr, hBtr]
      rw [find?_map_eq_map_find? _ _ _
        (by intro x; by_cases hx : decide (x.id = tid) = true <;> simp [hx])]
      rw [show db.trades.find? (fun t => decide (t.id = tid)) = some t2
        from hT]
      have htid2 : t2.id = tid := by simpa using htid
      simp [htid2]
    · -- exit reason stopped_out
      show ((db3.logOrderEvent none tid "phase_sl_hit").findTrade tid).map
        (fun t => t.exit_reason) = some (some "stopped_out")
      unfold DB.findTrade
      rw [show (db3.logOrderEvent none tid "phase_sl_hit").trades = db3.trades
        from rfl, eTr, hBtr]
      rw [find?_map_eq_map_find? _ _ _
        (by intro x; by_cases hx : decide (x.id = tid) = true <;> simp [hx])]
      rw [show db.trades.find? (fun t => decide (t.id = tid)) = some t2
        from hT]
      have htid2 : t2.id = tid := by simpa using htid
      simp [htid2]
    · -- the found trade row's remaining_shares is its pre-stop value
      show ((db3.logOrderEvent none tid "phase_sl_hit").findTrade tid).map
        (fun t => t.remaining_shares) = some t2.remaining_shares
      unfold DB.findTrade
      rw [show (db3.logOrderEvent none tid "phase_sl_hit").trades = db3.trades
        from rfl, eTr, hBtr]
      rw [find?_map_eq_map_find? _ _ _
        (by intro x; by_cases hx : decide (x.id = tid) = true <;> simp [hx])]
      rw [show db.trades.find? (fun t => decide (t.id = tid)) = some t2
        from hT]
      have htid2 : t2.id = tid := by simpa using htid
      simp [htid2]
    · -- remaining_shares of every trade row untouched
      intro t' ht'
      rw [show (db3.logOrderEvent none tid "phase_sl_hit").trades = db3.trades
        from rfl, eTr, hBtr] at ht'
      obtain ⟨u, hu, hut⟩ := List.mem_map.mp ht'
      refine ⟨u, hu, ?_, ?_⟩ <;>
        by_cases hxu : decide (u.id = tid) = true <;> simp [hxu, ← hut]

/-- `find?` by trade id over two stacked id-preserving row updates. -/
theorem findTrade_double_map (db : DB) (tid : Nat) (trade : Trade)
    (hT : db.findTrade tid = some trade) (f g : Trade → Trade)
    (hf : ∀ x, (f x).id = x.id) (hg : ∀ x, (g x).id = x.id) :
    ((db.trades.map f).map g).find? (fun t => decide (t.id = tid)) =
      some (g (f trade)) := by
  rw [find?_map_eq_map_find? _ _ _ (fun x => by simp [hg x]),
      find?_map_eq_map_find? _ _ _ (fun x => by simp [hf x]),
      show db.trades.find? (fun t => decide (t.id = tid)) = some trade
        from hT]
  rfl

/-- Unfolding `handlePhaseTakeProfitHit` on the success path (under
distinct phase-row ids): the filled phase is completed with P&L
`(fillPrice - entry_price) * shares_to_sell`, the trade's remaining shares
drop by the phase's allocation, the phase's protective `remaining_sl`
orders are recorded cancelled, issues are untouched, and then either the
trade is finalized (`phaseNumber >= 4` or no shares remain) or the trade
advances to phase `phaseNumber + 1`, whose row becomes active and whose
OCO sell order is recorded at that phase's computed prices. -/
theorem handlePhaseTakeProfitHit_ok_spec (db : DB) (tid : Nat) (n : ℤ)
    (fp : ℚ) (env : VenueEnv) (db' : DB)
    (hnd : (db.trade_phases.map (fun p => p.id)).Nodup)
    (h : handlePhaseTakeProfitHit db tid n fp env = .ok db') :
    ∃ trade ph, db.findTrade tid = some trade ∧
      db.findPhase tid n = some ph ∧
      db'.reconciliation_issues = db.reconciliation_issues ∧
      ({ ph with
        status := "completed", exit_price := some fp,
        exit_type := some "take_profit",
        phase_pnl := some ((fp - trade.entry_price) * ph.shares_to_sell) } :
        TradePhase) ∈ db'.trade_phases ∧
      (db'.findTrade tid).map (fun t => t.remaining_shares) =
        some (trade.remaining_shares - ph.shares_to_sell) ∧
      (∀ o ∈ db.orders, o.trade_id = tid → o.phase = n →
        o.purpose = "remaining_sl" → o.status ≠ "cancelled" →
        o.status ≠ "filled" → hasCancelledRow db' o.id) ∧
      (if n ≥ 4 ∨ trade.remaining_shares - ph.shares_to_sell ≤ 0 then
        (db'.findTrade tid).map (fun t => t.status) = some "completed" ∧
        (db'.findTrade tid).map (fun t => t.exit_reason) =
          some (some "phase_4_complete")
      else
        (db'.findTrade tid).map (fun t => t.current_phase) = some (n + 1) ∧
        ∃ ph2, db.findPhase tid (n + 1) = some ph2 ∧
          ({ ph2 with status := "active" } : TradePhase) ∈
            db'.trade_phases ∧
          (∃ o ∈ db'.orders, o.trade_id = tid ∧ o.phase = n + 1 ∧
            o.purpose = "phase_tp" ∧ o.order_class = "oco" ∧
            o.qty = ph2.shares_to_sell ∧
            o.limit_price = some ph2.take_profit_price ∧
            o.stop_price = some ph2.stop_loss_price ∧
            o.alpaca_order_id = env.ocoId ∧ o.status = env.ocoStatus)) := by
  unfold handlePhaseTakeProfitHit at h
  cases hT : db.findTrade tid with
  | none => rw [hT] at h; exact absurd h (by simp)
  | some trade =>
  cases hP : db.findPhase tid n with
  | none => rw [hT, hP] at h; exact absurd h (by simp)
  | some ph =>
  rw [hT, hP] at h
  simp only [andThen_ok, Except.ok.injEq] at h
  obtain ⟨db3, hcan, db4, hnext, hdb'⟩ := h
  subst hdb'
  have htid : trade.id = tid := by
    have := List.find?_some
      (show db.trades.find? (fun t => decide (t.id = tid)) = some trade
        from hT)
    simpa using this
  have hphmem : ph ∈ db.trade_phases :=
    List.mem_of_find?_eq_some
      (show db.trade_phases.find? (fun p =>
        decide (p.trade_id = tid ∧ p.phase_number = n)) = some ph from hP)
  have hphn : ph.trade_id = tid ∧ ph.phase_number = n := by
    have := List.find?_some
      (show db.trade_phases.find? (fun p =>
        decide (p.trade_id = tid ∧ p.phase_number = n)) = some ph from hP)
    simpa using this
  -- frames of the pre-branch ledger db3
  obtain ⟨c3tr, c3ph, c3ev, c3is, c3nx⟩ := cancelOrdersStrict_ok_frame _ _ _ _ hcan
  refine ⟨trade, ph, rfl, rfl, ?_, ?_, ?_, ?_, ?_⟩
  · -- issues unchanged
    by_cases hbr : n ≥ 4 ∨ trade.remaining_shares - ph.shares_to_sell ≤ 0
    · rw [if_pos hbr] at hnext
      obtain ⟨t3, _hT3, _, _, eIs4, _, _, _⟩ := completeTrade_ok_spec _ _ _ _ hnext
      show db4.reconciliation_issues = db.reconciliation_issues
      rw [eIs4, c3is]
      simp [DB.updateTrades, DB.updatePhases]
    · rw [if_neg hbr] at hnext
      obtain ⟨t4, p4, _, _, _, eIs5, _, _, _⟩ := placePhaseOrders_ok_spec _ _ _ _ _ hnext
      show db4.reconciliation_issues = db.reconciliation_issues
      rw [eIs5]
      show db3.reconciliation_issues = db.reconciliation_issues
      rw [c3is]
      simp [DB.updateTrades, DB.updatePhases]
  · -- the completed phase row is present
    have hbase : ({ ph with
        status := "completed", exit_price := some fp,
        exit_type := some "take_profit",
        phase_pnl := some ((fp - trade.entry_price) * ph.shares_to_sell) } :
        TradePhase) ∈ db3.trade_phases := by
      rw [c3ph]
      show _ ∈ db.trade_phases.map (fun p =>
        if decide (p.id = ph.id) = true then { p with
          status := "completed", exit_price := some fp,
          exit_type := some "take_profit",
          phase_pnl := some ((fp - trade.entry_price) * ph.shares_to_sell) }
        else p)
      have := List.mem_map_of_mem (fun p =>
        if decide (p.id = ph.id) = true then ({ p with
          status := "completed", exit_price := some fp,
          exit_type := some "take_profit",
          phase_pnl := some ((fp - trade.entry_price) * ph.shares_to_sell) } :
          TradePhase)
        else p) hphmem
      simpa using this
    by_cases hbr : n ≥ 4 ∨ trade.remaining_shares - ph.shares_to_sell ≤ 0
    · rw [if_pos hbr] at hnext
      obtain ⟨t3, _hT3, ePh4, _, _, _, _, _⟩ := completeTrade_ok_spec _ _ _ _ hnext
      show _ ∈ db4.trade_phases
      rw [ePh4]
      exact hbase
    · rw [if_neg hbr] at hnext
      obtain ⟨t4, p4, hT4, hP4, _, _, _, ePh5, _⟩ := placePhaseOrders_ok_spec _ _ _ _ _ hnext
      -- p4 is the original phase n+1 row, whose id differs from ph.id
      have hp4mem : p4 ∈ db3.trade_phases := by
        have := List.mem_of_find?_eq_some (show _ = some p4 from hP4)
        simpa [DB.updateTrades] using this
      have hp4n : p4.trade_id = tid ∧ p4.phase_number = n + 1 := by
        have := List.find?_some (show _ = some p4 from hP4)
        simpa using this
      have hp4id : ¬ (p4.id = ph.id) := by
        intro hid
        rw [c3ph] at hp4mem
        obtain ⟨q, hq, hq4⟩ := List.mem_map.mp hp4mem
        by_cases hqid : decide (q.id = ph.id) = true
        · rw [if_pos hqid] at hq4
          have : p4.phase_number = q.phase_number := by rw [← hq4]
          have hq2 : q = ph := List.inj_on_of_nodup_map hnd hq hphmem
            (by simpa using hqid)
          rw [hq2, hphn.2, hp4n.2] at this
          omega
        · rw [if_neg hqid] at hq4
          exact hqid (by simp [hq4, hid])
      show _ ∈ db4.trade_phases
      rw [ePh5]
      refine List.mem_map.mpr ⟨_, hbase, ?_⟩
      have hne2 : ph.id ≠ p4.id := fun hh => hp4id hh.symm
      simp [hne2]
  · -- remaining shares decremented by the phase allocation
    by_cases hbr : n ≥ 4 ∨ trade.remaining_shares - ph.shares_to_sell ≤ 0
    · rw [if_pos hbr] at hnext
      obtain ⟨t3, _hT3, _, _, _, _, _, eTr4⟩ :=
        completeTrade_ok_spec _ _ _ _ hnext
      show ((db4.logOrderEvent none tid "phase_tp_hit").findTrade tid).map
        (fun t => t.remaining_shares) =
        some (trade.remaining_shares - ph.shares_to_sell)
      unfold DB.findTrade
      rw [show (db4.logOrderEvent none tid "phase_tp_hit").trades = db4.trades
        from rfl, eTr4, c3tr]
      simp only [DB.updateTrades, DB.updatePhases]
      rw [find?_map_eq_map_find? _ _ _
          (by intro x; by_cases hx : decide (x.id = tid) = true <;> simp [hx]),
        find?_map_eq_map_find? _ _ _
          (by intro x; by_cases hx : decide (x.id = tid) = true <;> simp [hx]),
        show db.trades.find? (fun t => decide (t.id = tid)) = some trade
          from hT]
      simp [htid]
    · rw [if_neg hbr] at hnext
      obtain ⟨t4, p4, hT4, hP4, eTr5, _, _, _, _⟩ :=
        placePhaseOrders_ok_spec _ _ _ _ _ hnext
      show ((db4.logOrderEvent none tid "phase_tp_hit").findTrade tid).map
        (fun t => t.remaining_shares) =
        some (trade.remaining_shares - ph.shares_to_sell)
      unfold DB.findTrade
      rw [show (db4.logOrderEvent none tid "phase_tp_hit").trades = db4.trades
        from rfl, eTr5]
      simp only [DB.updateTrades]
      rw [c3tr]
      simp only [DB.updateTrades, DB.updatePhases]
      rw [find?_map_eq_map_find? _ _ _
          (by intro x; by_cases hx : decide (x.id = tid) = true <;> simp [hx]),
        find?_map_eq_map_find? _ _ _
          (by intro x; by_cases hx : decide (x.id = tid) = true <;> simp [hx]),
        show db.trades.find? (fun t => decide (t.id = tid)) = some trade
          from hT]
      simp [htid]
  · -- the phase's protective remaining_sl orders end cancelled
    intro o ho ht1 ht2 ht3 hnc hnf
    have hc3row : hasCancelledRow db3 o.id := by
      refine cancelOrdersStrict_cancels _ _ _ _ hcan o ?_ ?_ ?_
      · exact List.mem_filter.mpr ⟨ho, by simp [ht1, ht2, ht3]⟩
      · rintro (hcc | hcc)
        · exact hnc hcc
        · exact hnf hcc
      · exact ⟨o, ho, rfl⟩
    by_cases hbr : n ≥ 4 ∨ trade.remaining_shares - ph.shares_to_sell ≤ 0
    · rw [if_pos hbr] at hnext
      obtain ⟨t3, _hT3, _, eOrd4, _, _, _, _⟩ :=
        completeTrade_ok_spec _ _ _ _ hnext
      exact hasCancelledRow_congr (show (db4.logOrderEvent none tid
        "phase_tp_hit").orders = db3.orders from eOrd4) hc3row
    · rw [if_neg hbr] at hnext
      obtain ⟨t4, p4, hT4, hP4, _, _, _, _, rest, eOrd5, _⟩ :=
        placePhaseOrders_ok_spec _ _ _ _ _ hnext
      exact hasCancelledRow_append _ (show (db4.logOrderEvent none tid
        "phase_tp_hit").orders = db3.orders ++ _ from eOrd5) hc3row
  · -- branch outcome
    by_cases hbr : n ≥ 4 ∨ trade.remaining_shares - ph.shares_to_sell ≤ 0
    · rw [if_pos hbr]
      rw [if_pos hbr] at hnext
      obtain ⟨t3, _hT3, _, _, _, _, _, eTr4⟩ :=
        completeTrade_ok_spec _ _ _ _ hnext
      constructor
      · show ((db4.logOrderEvent none tid "phase_tp_hit").findTrade tid).map
          (fun t => t.status) = some "completed"
        unfold DB.findTrade
        rw [show (db4.logOrderEvent none tid "phase_tp_hit").trades =
          db4.trades from rfl, eTr4, c3tr]
        simp only [DB.updateTrades, DB.updatePhases]
        rw [find?_map_eq_map_find? _ _ _
            (by intro x; by_cases hx : decide (x.id = tid) = true <;>
              simp [hx]),
          find?_map_eq_map_find? _ _ _
            (by intro x; by_cases hx : decide (x.id = tid) = true <;>
              simp [hx]),
          show db.trades.find? (fun t => decide (t.id = tid)) = some trade
            from hT]
        simp [htid]
      · show ((db4.logOrderEvent none tid "phase_tp_hit").findTrade tid).map
          (fun t => t.exit_reason) = some (some "phase_4_complete")
        unfold DB.findTrade
        rw [show (db4.logOrderEvent none tid "phase_tp_hit").trades =
          db4.trades from rfl, eTr4, c3tr]
        simp only [DB.updateTrades, DB.updatePhases]
        rw [find?_map_eq_map_find? _ _ _
            (by intro x; by_cases hx : decide (x.id = tid) = true <;>
              simp [hx]),
          find?_map_eq_map_find? _ _ _
            (by intro x; by_cases hx : decide (x.id = tid) = true <;>
              simp [hx]),
          show db.trades.find? (fun t => decide (t.id = tid)) = some trade
            from hT]
        simp [htid]
    · rw [if_neg hbr]
      rw [if_neg hbr] at hnext
      obtain ⟨t4, p4, hT4, hP4, eTr5, _, _, ePh5, rest, eOrd5, _⟩ :=
        placePhaseOrders_ok_spec _ _ _ _ _ hnext
      have hphid_find : db.findPhase tid (n + 1) = some p4 := by
        rw [← hP4]
        show db.trade_phases.find? (fun p =>
            decide (p.trade_id = tid ∧ p.phase_number = n + 1)) =
          db3.trade_phases.find? (fun p =>
            decide (p.trade_id = tid ∧ p.phase_number = n + 1))
        rw [c3ph]
        simp only [DB.updateTrades, DB.updatePhases]
        refine (find?_map_congr _ _ _ ?_ ?_).symm
        · intro x hx
          by_cases hxi : decide (x.id = ph.id) = true <;> simp [hxi]
        · intro x hx hpx
          have hxnum : x.phase_number = n + 1 := by
            have := hpx
            simp only [decide_eq_true_eq] at this
            exact this.2
          have hnot : ¬ decide (x.id = ph.id) = true := by
            intro hxi
            have hx2 : x = ph := List.inj_on_of_nodup_map hnd hx hphmem
              (by simpa using hxi)
            rw [hx2, hphn.2] at hxnum
            omega
          simp [hnot]
      refine ⟨?_, p4, hphid_find, ?_, ?_⟩
      · show ((db4.logOrderEvent none tid "phase_tp_hit").findTrade tid).map
          (fun t => t.current_phase) = some (n + 1)
        unfold DB.findTrade
        rw [show (db4.logOrderEvent none tid "phase_tp_hit").trades =
          db4.trades from rfl, eTr5]
        simp only [DB.updateTrades]
        rw [c3tr]
        simp only [DB.updateTrades, DB.updatePhases]
        rw [find?_map_eq_map_find? _ _ _
            (by intro x; by_cases hx : decide (x.id = tid) = true <;>
              simp [hx]),
          find?_map_eq_map_find? _ _ _
            (by intro x; by_cases hx : decide (x.id = tid) = true <;>
              simp [hx]),
          show db.trades.find? (fun t => decide (t.id = tid)) = some trade
            from hT]
        simp [htid]
      · show _ ∈ db4.trade_phases
        rw [ePh5]
        exact List.mem_map.mpr ⟨p4, List.mem_of_find?_eq_some hP4, by simp⟩
      · have hoco : ocoOrderRow t4 p4 tid (n + 1) env
            ((db3.updateTrades (fun t => decide (t.id = tid))
              (fun t => { t with current_phase := n + 1 })).nextId) ∈
            db4.orders := by
          rw [eOrd5]
          exact List.mem_append_right _ (List.mem_cons_self _ _)
        refine ⟨_, hoco, ?_⟩
        simp [ocoOrderRow]

/-- Unfolding `handleEntryFill` on the success path: the trade row gets
`entry_price = fillPrice`, status `active` and phase 1 — with NO guard on
its previous status — and every phase row of the trade has its absolute
take-profit / stop-loss price recomputed from the fill price before the
phase-1 row is activated. -/
theorem handleEntryFill_ok_spec (db : DB) (tid : Nat) (fp : ℚ) (qty : ℤ)
    (env : VenueEnv) (db' : DB)
    (h : handleEntryFill db tid fp qty env = .ok db') :
    ∃ trade, db.findTrade tid = some trade ∧
      db'.reconciliation_issues = db.reconciliation_issues ∧
      db'.trades = db.trades.map (fun t =>
        if decide (t.id = tid) = true then
          { t with entry_price := fp, status := "active",
                   current_phase := 1 }
        else t) ∧
      (db'.findTrade tid).map (fun t => t.entry_price) = some fp ∧
      (db'.findTrade tid).map (fun t => t.status) = some "active" ∧
      (db'.findTrade tid).map (fun t => t.current_phase) = some 1 ∧
      ∃ pid, db'.trade_phases = (db.trade_phases.map (fun p =>
          if decide (p.trade_id = tid) = true then
            { p with
              take_profit_price := fp * (1 + p.take_profit_pct / 100),
              stop_loss_price := fp * (1 + p.stop_loss_pct / 100) }
          else p)).map
        (fun p => if decide (p.id = pid) = true then
          { p with status := "active" } else p) := by
  unfold handleEntryFill at h
  cases hT : db.findTrade tid with
  | none => rw [hT] at h; exact absurd h (by simp)
  | some trade =>
    rw [hT] at h
    simp only [andThen_ok, Except.ok.injEq] at h
    obtain ⟨db3, hpp, hdb'⟩ := h
    subst hdb'
    obtain ⟨t2, ph1, _hT2, _hP2, eTr, eIs, _eEv, ePh, _rest, _eOrd, _⟩ :=
      placePhaseOrders_ok_spec _ _ _ _ _ hpp
    have htid : trade.id = tid := by
      have := List.find?_some
        (show db.trades.find? (fun t => decide (t.id = tid)) = some trade
          from hT)
      simpa using this
    have hTrEq : (db3.logOrderEvent none tid "entry_filled").trades =
        db.trades.map (fun t =>
          if decide (t.id = tid) = true then
            { t with entry_price := fp, status := "active",
                     current_phase := 1 }
          else t) := by
      rw [show (db3.logOrderEvent none tid "entry_filled").trades = db3.trades
        from rfl, eTr]
      simp [DB.updateTrades, DB.updatePhases]
    have hfind : (db3.logOrderEvent none tid "entry_filled").findTrade tid =
        some (if decide (trade.id = tid) = true then
          { trade with entry_price := fp, status := "active",
                       current_phase := 1 }
        else trade) := by
      unfold DB.findTrade
      rw [hTrEq]
      rw [find?_map_eq_map_find? _ _ _
          (by intro x; by_cases hx : decide (x.id = tid) = true <;> simp [hx]),
        show db.trades.find? (fun t => decide (t.id = tid)) = some trade
          from hT]
      rfl
    refine ⟨trade, rfl, ?_, hTrEq, ?_, ?_, ?_, ph1.id, ?_⟩
    · rw [show (db3.logOrderEvent none tid
        "entry_filled").reconciliation_issues = db3.reconciliation_issues
        from rfl, eIs]
      simp [DB.updateTrades, DB.updatePhases]
    · rw [hfind]; simp [htid]
    · rw [hfind]; simp [htid]
    · rw [hfind]; simp [htid]
    · rw [show (db3.logOrderEvent none tid "entry_filled").trade_phases =
        db3.trade_phases from rfl, ePh]
      simp [DB.updateTrades, DB.updatePhases]

/-! ## Concrete fixtures: the ACME trade of the spec's scenario walk
(1000 shares at 10.00, template split 35/30/25/10, TP 2/5/8/12 %,
SL -2/0/2/5 %). -/

def acmeTemplate : List TemplatePhase :=
  [{ phase := 1, take_profit_pct := 2, stop_loss_pct := -2, sell_pct := 35 },
   { phase := 2, take_profit_pct := 5, stop_loss_pct := 0, sell_pct := 30 },
   { phase := 3, take_profit_pct := 8, stop_loss_pct := 2, sell_pct := 25 },
   { phase := 4, take_profit_pct := 12, stop_loss_pct := 5, sell_pct := 10 }]

def acmeTradePending : Trade :=
  { id := 1, trade_uuid := "u1000aaa", symbol := "ACME", entry_price := 10,
    total_shares := 1000, position_size := 10000, remaining_shares := 1000,
    current_phase := 0, status := "pending" }

def acmePhase1 : TradePhase :=
  { id := 11, trade_id := 1, phase_number := 1, status := "pending",
    take_profit_pct := 2, stop_loss_pct := -2, sell_pct := 35,
    take_profit_price := 10.2, stop_loss_price := 9.8, shares_to_sell := 350 }

def acmePhase2 : TradePhase :=
  { id := 12, trade_id := 1, phase_number := 2, status := "pending",
    take_profit_pct := 5, stop_loss_pct := 0, sell_pct := 30,
    take_profit_price := 10.5, stop_loss_price := 10, shares_to_sell := 300 }

def acmePhase3 : TradePhase :=
  { id := 13, trade_id := 1, phase_number := 3, status := "pending",
    take_profit_pct := 8, stop_loss_pct := 2, sell_pct := 25,
    take_profit_price := 10.8, stop_loss_price := 10.2, shares_to_sell := 250 }

def acmePhase4 : TradePhase :=
  { id := 14, trade_id := 1, phase_number := 4, status := "pending",
    take_profit_pct := 12, stop_loss_pct := 5, sell_pct := 10,
    take_profit_price := 11.2, stop_loss_price := 10.5, shares_to_sell := 100 }

def acmeEntryOrder : Order :=
  { id := 21, trade_id := 1, alpaca_order_id := "AE1",
    client_order_id := "RZE-ENTRY-u1000aaa", symbol := "ACME", side := "buy",
    order_type := "limit", order_class := "simple", qty := 1000,
    limit_price := some 10, phase := 0, purpose := "entry", status := "new" }

def acmeOco1 : Order :=
  { id := 22, trade_id := 1, alpaca_order_id := "AO1",
    client_order_id := "RZE-P1-OCO-u1000aaa", symbol := "ACME", side := "sell",
    order_type := "limit", order_class := "oco", qty := 350,
    limit_price := some 10.2, stop_price := some 9.8, phase := 1,
    purpose := "phase_tp", status := "new" }

def acmeSl1 : Order :=
  { id := 23, trade_id := 1, alpaca_order_id := "AS1",
    client_order_id := "RZE-P1-SL-u1000aaa", symbol := "ACME", side := "sell",
    order_type := "stop", order_class := "simple", qty := 650,
    stop_price := some 9.8, phase := 1, purpose := "remaining_sl",
    status := "new" }

def acmeOco2 : Order :=
  { id := 24, trade_id := 1, alpaca_order_id := "AO2",
    client_order_id := "RZE-P2-OCO-u1000aaa", symbol := "ACME", side := "sell",
    order_type := "limit", order_class := "oco", qty := 300,
    limit_price := some 10.5, stop_price := some 10, phase := 2,
    purpose := "phase_tp", status := "new" }

/-- The venue environment used by the fixtures: fresh venue ids for newly
placed orders, and a venue whose cancels always succeed. -/
def envA : VenueEnv :=
  { ocoId := "AO2", ocoStatus := "new", slId := "AS2", slStatus := "new",
    cancelFails := fun _ => false }

/-- The ledger just after `executeTrade`: pending trade, four pending
phases priced from the estimated entry price, recorded entry order. -/
def acmePendingDb : DB :=
  { trades := [acmeTradePending],
    trade_phases := [acmePhase1, acmePhase2, acmePhase3, acmePhase4],
    orders := [acmeEntryOrder], order_events := [],
    reconciliation_issues := [], nextId := 30 }

/-- The ledger just after the entry filled at 10.00 and the phase 1 orders
were placed. -/
def acmeActiveDb : DB :=
  { trades := [{ acmeTradePending with
      status := "active", current_phase := 1 }],
    trade_phases := [{ acmePhase1 with status := "active" },
                     acmePhase2, acmePhase3, acmePhase4],
    orders := [{ acmeEntryOrder with
      status := "filled", filled_qty := some 1000,
      filled_avg_price := some 10 },
               acmeOco1, acmeSl1],
    order_events := [], reconciliation_issues := [], nextId := 30 }

/-- The ledger just after phase 1's take-profit hit at 10.20: phase 1
completed with P&L 70.00, remaining shares 650, phase 2 active with its
OCO order recorded. -/
def acmePhase2Trade : Trade :=
  { acmeTradePending with
      status := "active", current_phase := 2, remaining_shares := 650 }

def acmePhase2Db : DB :=
  { trades := [acmePhase2Trade],
    trade_phases := [{ acmePhase1 with
      status := "completed", exit_price := some 10.2,
      exit_type := some "take_profit", phase_pnl := some 70 },
                     { acmePhase2 with status := "active" },
                     acmePhase3, acmePhase4],
    orders := [{ acmeEntryOrder with
      status := "filled", filled_qty := some 1000,
      filled_avg_price := some 10 },
               { acmeOco1 with
      status := "filled", filled_qty := some 350,
      filled_avg_price := some 10.2 },
               { acmeSl1 with status := "cancelled" },
               acmeOco2],
    order_events := [], reconciliation_issues := [], nextId := 30 }

/-- The ledger after the phase-2 stop-out completed the trade. -/
def acmeCompletedDb : DB :=
  { trades := [{ acmeTradePending with
      status := "completed", current_phase := 2, remaining_shares := 650,
      realized_pnl := some 70, realized_pnl_pct := some 0.7,
      exit_reason := some "phase_4_complete", exit_phase := some 2 }],
    trade_phases := [{ acmePhase1 with
      status := "completed", exit_price := some 10.2,
      exit_type := some "take_profit", phase_pnl := some 70 },
                     { acmePhase2 with
      status := "completed", exit_price := some 10,
      exit_type := some "stop_loss", phase_pnl := some 0 },
                     acmePhase3, acmePhase4],
    orders := [{ acmeEntryOrder with
      status := "filled", filled_qty := some 1000,
      filled_avg_price := some 10 },
               { acmeOco1 with
      status := "filled", filled_qty := some 350,
      filled_avg_price := some 10.2 },
               { acmeSl1 with status := "cancelled" },
               { acmeOco2 with status := "cancelled" }],
    order_events := [], reconciliation_issues := [], nextId := 30 }

/-! ## C3: exact share allocation across the four phases -/

/-- C3: for a trade created from a four-phase template whose `sell_pct`
sum to 100, the phase-creation loop gives phases 1-3 exactly
`floor(total * sell_pct / 100)` shares and phase 4 the exact remainder,
so the four `shares_to_sell` always sum to `total_shares` — for every
share count and split, regardless of rounding. -/
theorem phase_share_allocation_exact (totalShares : ℤ)
    (p1 p2 p3 p4 : TemplatePhase)
    (_hsum : p1.sell_pct + p2.sell_pct + p3.sell_pct + p4.sell_pct = 100)
    (h1 : p1.phase = 1) (h2 : p2.phase = 2) (h3 : p3.phase = 3)
    (h4 : p4.phase = 4) :
    sharesToSellList totalShares [p1, p2, p3, p4] 0 =
      [⌊(totalShares : ℚ) * (p1.sell_pct / 100)⌋,
       ⌊(totalShares : ℚ) * (p2.sell_pct / 100)⌋,
       ⌊(totalShares : ℚ) * (p3.sell_pct / 100)⌋,
       totalShares -
         (⌊(totalShares : ℚ) * (p1.sell_pct / 100)⌋ +
          ⌊(totalShares : ℚ) * (p2.sell_pct / 100)⌋ +
          ⌊(totalShares : ℚ) * (p3.sell_pct / 100)⌋)] ∧
    (sharesToSellList totalShares [p1, p2, p3, p4] 0).sum = totalShares := by
  have e1 : ¬ (p1.phase = 4) := by rw [h1]; decide
  have e2 : ¬ (p2.phase = 4) := by rw [h2]; decide
  have e3 : ¬ (p3.phase = 4) := by rw [h3]; decide
  constructor
  · simp only [sharesToSellList, if_neg e1, if_neg e2, if_neg e3, if_pos h4]
    norm_num
  · simp only [sharesToSellList, if_neg e1, if_neg e2, if_neg e3, if_pos h4,
      List.sum_cons, List.sum_nil]
    ring

/-- C3 witness: the ACME template (35/30/25/10) on 1000 shares allocates
350/300/250/100. -/
theorem phase_share_allocation_exact_witness :
    (35 : ℚ) + 30 + 25 + 10 = 100 ∧
    sharesToSellList 1000 acmeTemplate 0 = [350, 300, 250, 100] ∧
    (sharesToSellList 1000 acmeTemplate 0).sum = 1000 := by
  have h := phase_share_allocation_exact 1000
    { phase := 1, take_profit_pct := 2, stop_loss_pct := -2, sell_pct := 35 }
    { phase := 2, take_profit_pct := 5, stop_loss_pct := 0, sell_pct := 30 }
    { phase := 3, take_profit_pct := 8, stop_loss_pct := 2, sell_pct := 25 }
    { phase := 4, take_profit_pct := 12, stop_loss_pct := 5, sell_pct := 10 }
    (by norm_num) rfl rfl rfl rfl
  refine ⟨by norm_num, ?_, h.2⟩
  rw [show sharesToSellList 1000 acmeTemplate 0 =
    sharesToSellList 1000
      [{ phase := 1, take_profit_pct := 2, stop_loss_pct := -2, sell_pct := 35 },
       { phase := 2, take_profit_pct := 5, stop_loss_pct := 0, sell_pct := 30 },
       { phase := 3, take_profit_pct := 8, stop_loss_pct := 2, sell_pct := 25 },
       { phase := 4, take_profit_pct := 12, stop_loss_pct := 5, sell_pct := 10 }]
      0 from rfl, h.1]
  norm_num

/-! ## C9: the poll path crashes before doing anything -/

/-- C9: whenever the ledger has at least one currently-open-by-ledger
order, `syncOrders` throws `ReferenceError: dbOrdersCount is not defined`
on its leftover debug log line before fetching the venue order list, so
the poll path performs none of the push path's update-and-dispatch
logic. -/
theorem sync_orders_reference_error (db : DB)
    (h : ∃ o ∈ db.orders, o.status ∈ syncOpenStatuses) :
    syncOrders db = .error "ReferenceError: dbOrdersCount is not defined" := by
  unfold syncOrders
  obtain ⟨o, ho, hs⟩ := h
  rw [if_neg]
  intro hempty
  rw [List.isEmpty_iff] at hempty
  have : o ∈ db.orders.filter (fun o => decide (o.status ∈ syncOpenStatuses)) := by
    rw [List.mem_filter]
    exact ⟨ho, by simpa using hs⟩
  rw [hempty] at this
  exact absurd this (List.not_mem_nil o)

/-- C9 witness: the active ACME ledger (entry order status `filled`,
phase-1 orders status `new`) makes the poll path throw. -/
theorem sync_orders_reference_error_witness :
    syncOrders acmeActiveDb =
      .error "ReferenceError: dbOrdersCount is not defined" :=
  sync_orders_reference_error acmeActiveDb
    ⟨acmeOco1,
     List.mem_cons_of_mem _ (List.mem_cons_self _ _),
     by decide⟩

/-! ## Concrete counterexample runs -/

/-- The push update delivering the phase-1 OCO take-profit fill at 10.20. -/
def pushFillAO1 : PushUpdate :=
  { event := "fill",
    order := { id := "AO1", status := "filled", symbol := "ACME",
               side := "sell", qty := 350, filled_qty := 350,
               filled_avg_price := some 10.2 } }

/-- The ledger after the same venue fill fact was delivered twice through
the push path. -/
def c1ReplayDb : DB :=
  handleOrderUpdate (handleOrderUpdate acmeActiveDb pushFillAO1 envA)
    pushFillAO1 envA

/-- C1 counterexample: delivering the very same venue fill fact for order
"AO1" twice through the push ingestion path produces TWO OrderEvents
referencing that venue id and TWO phase transitions (remaining shares
fall 1000 → 650 → 300), not exactly one of each — `handleOrderUpdate`
never consults the OrderEvent table before recording and dispatching. -/
theorem push_path_replay_double_processes :
    (c1ReplayDb.order_events.filter (fun e =>
      decide (e.event_type = "fill") && e.event_data.contains "AO1")).length
      = 2 ∧
    (c1ReplayDb.findTrade 1).map (fun t => t.remaining_shares) = some 300 :=
  ⟨by decide, by decide⟩

/-- The result of re-delivering an entry fill (at a drifted price 11.00)
to the ACME trade after it is already active in phase 2. -/
def c5RefillRes : DB :=
  exceptDb (handleEntryFill acmePhase2Db 1 11 1000 envA) acmePhase2Db

/-- C5 counterexample: `handleEntryFill` is NOT a no-op on a trade that is
no longer pending — re-delivery to the active phase-2 ACME trade succeeds
and rewinds `current_phase` from 2 to 1, overwriting `entry_price` with
the new fill price. -/
theorem entry_fill_not_noop_when_active :
    (acmePhase2Db.findTrade 1).map (fun t => t.status) = some "active" ∧
    (acmePhase2Db.findTrade 1).map (fun t => t.current_phase) = some 2 ∧
    handleEntryFill acmePhase2Db 1 11 1000 envA = .ok c5RefillRes ∧
    (c5RefillRes.findTrade 1).map (fun t => t.current_phase) = some 1 ∧
    (c5RefillRes.findTrade 1).map (fun t => t.entry_price) = some 11 :=
  ⟨by decide, by decide, rfl, by decide, rfl⟩

/-- The ledger after the phase-2 stop-loss fill at 10.00 for 300 shares
was processed on the phase-2 ACME state. -/
def c7StopRes : DB :=
  exceptDb (handlePhaseStopLossHit acmePhase2Db 1 2 10 300 envA) acmePhase2Db

/-- C7 counterexample: after a phase-2 stop-out the not-yet-reached phases
3 and 4 end with status `"pending"`, not `"skipped"` — no code path ever
writes the schema's `"skipped"` status. -/
theorem stop_out_leaves_phases_pending :
    handlePhaseStopLossHit acmePhase2Db 1 2 10 300 envA = .ok c7StopRes ∧
    (c7StopRes.findTrade 1).map (fun t => t.status) = some "completed" ∧
    (c7StopRes.findTrade 1).map (fun t => t.exit_reason) =
      some (some "stopped_out") ∧
    (c7StopRes.trade_phases.find? (fun p => decide (p.phase_number = 3))).map
      (fun p => p.status) = some "pending" ∧
    (c7StopRes.trade_phases.find? (fun p => decide (p.phase_number = 4))).map
      (fun p => p.status) = some "pending" ∧
    ¬ ((c7StopRes.trade_phases.find? (fun p => decide (p.phase_number = 3))).map
      (fun p => p.status) = some "skipped") :=
  ⟨rfl, by decide, by decide, by decide, by decide, by decide⟩

/-- The result of calling `completeTrade` again, with a different exit
reason, on the already-completed ACME trade. -/
def c8ReRes : DB :=
  exceptDb (completeTrade acmeCompletedDb 1 "stopped_out") acmeCompletedDb

/-- C8 counterexample: a trade that is already `completed` CAN be
finalized again — `completeTrade` has no terminal-status guard, so a
second call succeeds and overwrites `exit_reason` from
`"phase_4_complete"` to `"stopped_out"`. -/
theorem complete_trade_reruns_on_completed :
    (acmeCompletedDb.findTrade 1).map (fun t => t.status) = some "completed" ∧
    (acmeCompletedDb.findTrade 1).map (fun t => t.exit_reason) =
      some (some "phase_4_complete") ∧
    completeTrade acmeCompletedDb 1 "stopped_out" = .ok c8ReRes ∧
    (c8ReRes.findTrade 1).map (fun t => t.exit_reason) =
      some (some "stopped_out") :=
  ⟨by decide, by decide, rfl, by decide⟩

/-- The venue order history reporting the phase-2 OCO canceled with its
stop leg "L2SL" filled for 300 shares at 10.00 (the venue position for
ACME is therefore 350). -/
def acmeVenueStopLeg : List VenueOrder :=
  [{ id := "AO2", status := "canceled", order_class := "oco",
     legs := [{ id := "L2SL", type := "stop", status := "filled",
                filled_qty := 300, filled_avg_price := 10 }],
     filled_qty := 0, filled_avg_price := 0 }]

/-- One reconciliation pass over the phase-2 ACME trade whose missed
stop-loss leg fill explains the ledger/venue discrepancy (650 vs 350). -/
def c2StopRes : DB :=
  reconcileTrade acmePhase2Db acmePhase2Trade [("ACME", 350)]
    acmeVenueStopLeg envA

/-- C2 counterexample: when the one discoverable missed fill explaining
the discrepancy is a stop-loss leg, the pass replays it and completes the
trade but `remaining_shares` stays at 650 — it does NOT converge to the
venue's reported 350 (the stop handler never touches `remaining_shares`).
No ReconciliationIssue is created. -/
theorem reconcile_missed_stop_fill_no_convergence :
    (c2StopRes.findTrade 1).map (fun t => t.remaining_shares) = some 650 ∧
    ¬ ((c2StopRes.findTrade 1).map (fun t => t.remaining_shares) = some 350) ∧
    c2StopRes.reconciliation_issues = [] ∧
    (c2StopRes.findTrade 1).map (fun t => t.status) = some "completed" :=
  ⟨by decide, by decide, by decide, by decide⟩

/-! ## C7 (amended) and C10: the stop-loss path -/

/-- C7 (amended): for every stop-loss fill on a phase of a trade that
exists in the ledger, `handlePhaseStopLossHit` records every other
non-terminal order of the trade as cancelled — succeeding for EVERY venue
cancel oracle, i.e. venue cancel failures are swallowed, not propagated —
marks the filled phase completed with `exit_type = stop_loss` and P&L
`(fillPrice - entry_price) * filledQty`, finalizes the trade with
`exit_reason = "stopped_out"`, and leaves every other phase row unchanged:
a not-yet-reached phase keeps its status `"pending"` (the status
`"skipped"` is never written). -/
theorem stop_loss_hit_spec (db : DB) (tid : Nat) (n : ℤ) (fp : ℚ)
    (qty : ℤ) (env : VenueEnv) (db' : DB)
    (h : handlePhaseStopLossHit db tid n fp qty env = .ok db') :
    ∃ trade, db.findTrade tid = some trade ∧
      (∀ o ∈ db.orders, o.trade_id = tid → o.status ≠ "filled" →
        o.status ≠ "cancelled" → hasCancelledRow db' o.id) ∧
      (∀ p ∈ db.trade_phases, p.trade_id = tid → p.phase_number = n →
        ({ p with
          status := "completed", exit_price := some fp,
          exit_type := some "stop_loss",
          phase_pnl := some ((fp - trade.entry_price) * qty) } : TradePhase)
          ∈ db'.trade_phases) ∧
      (∀ p ∈ db.trade_phases, ¬ (p.trade_id = tid ∧ p.phase_number = n) →
        p ∈ db'.trade_phases) ∧
      (db'.findTrade tid).map (fun t => t.status) = some "completed" ∧
      (db'.findTrade tid).map (fun t => t.exit_reason) =
        some (some "stopped_out") := by
  obtain ⟨trade, hT, _hIs, hCanc, hPh, hSt, hEx, _hRem, _hAll⟩ :=
    handlePhaseStopLossHit_ok_spec db tid n fp qty env db' h
  refine ⟨trade, hT, hCanc, ?_, ?_, hSt, hEx⟩
  · intro p hp h1 h2
    have := List.mem_map_of_mem (fun p => if decide
        (p.trade_id = tid ∧ p.phase_number = n) = true then
        ({ p with
          status := "completed", exit_price := some fp,
          exit_type := some "stop_loss",
          phase_pnl := some ((fp - trade.entry_price) * qty) } : TradePhase)
        else p) hp
    rw [← hPh] at this
    simpa [h1, h2] using this
  · intro p hp hne
    have := List.mem_map_of_mem (fun p => if decide
        (p.trade_id = tid ∧ p.phase_number = n) = true then
        ({ p with
          status := "completed", exit_price := some fp,
          exit_type := some "stop_loss",
          phase_pnl := some ((fp - trade.entry_price) * qty) } : TradePhase)
        else p) hp
    rw [← hPh] at this
    simpa [hne] using this

/-- C7 witness: the scenario — a phase-2 stop-loss fill at 10.00 for 300
shares after a 70.00 phase-1 profit completes the trade stopped_out,
leaves phases 3 and 4 pending, and realizes total P&L 70.00. -/
theorem stop_loss_hit_spec_witness :
    (∃ trade, acmePhase2Db.findTrade 1 = some trade ∧
      (∀ o ∈ acmePhase2Db.orders, o.trade_id = 1 → o.status ≠ "filled" →
        o.status ≠ "cancelled" → hasCancelledRow c7StopRes o.id) ∧
      (∀ p ∈ acmePhase2Db.trade_phases, p.trade_id = 1 →
        p.phase_number = 2 →
        ({ p with
          status := "completed", exit_price := some 10,
          exit_type := some "stop_loss",
          phase_pnl := some ((10 - trade.entry_price) * (300 : ℤ)) } :
            TradePhase) ∈ c7StopRes.trade_phases) ∧
      (∀ p ∈ acmePhase2Db.trade_phases,
        ¬ (p.trade_id = 1 ∧ p.phase_number = 2) →
        p ∈ c7StopRes.trade_phases) ∧
      (c7StopRes.findTrade 1).map (fun t => t.status) = some "completed" ∧
      (c7StopRes.findTrade 1).map (fun t => t.exit_reason) =
        some (some "stopped_out")) ∧
    (c7StopRes.findTrade 1).map (fun t => t.realized_pnl) =
      some (some 70) := by
  constructor
  · exact stop_loss_hit_spec acmePhase2Db 1 2 10 300 envA c7StopRes rfl
  · have h70 : (70 : ℚ) + ((10 - 10) * ((300 : ℤ) : ℚ) + 0) = 70 := by
      norm_num
    rw [show (c7StopRes.findTrade 1).map (fun t => t.realized_pnl) =
      some (some ((70 : ℚ) + ((10 - 10) * ((300 : ℤ) : ℚ) + 0)))
      from rfl, h70]

/-- C10: processing a stop-loss fill never modifies the trade's
`remaining_shares`: the handler (with the `completeTrade` it invokes)
leaves every trade row's `remaining_shares` at its pre-stop value — in
particular the stopped-out trade ends `completed` while still carrying its
old `remaining_shares`, neither decremented by the fill quantity nor
zeroed. -/
theorem stop_loss_preserves_remaining_shares (db : DB) (tid : Nat)
    (n : ℤ) (fp : ℚ) (qty : ℤ) (env : VenueEnv) (db' : DB)
    (h : handlePhaseStopLossHit db tid n fp qty env = .ok db') :
    (∀ t' ∈ db'.trades, ∃ t ∈ db.trades,
      t'.id = t.id ∧ t'.remaining_shares = t.remaining_shares) ∧
    ∃ trade, db.findTrade tid = some trade ∧
      (db'.findTrade tid).map (fun t => t.status) = some "completed" ∧
      (db'.findTrade tid).map (fun t => t.remaining_shares) =
        some trade.remaining_shares := by
  obtain ⟨trade, hT, _hIs, _hCanc, _hPh, hSt, _hEx, hRem, hAll⟩ :=
    handlePhaseStopLossHit_ok_spec db tid n fp qty env db' h
  exact ⟨hAll, trade, hT, hSt, hRem⟩

/-- C10 witness: the phase-2 stop-out of the ACME trade retains
`remaining_shares = 650` on the completed row. -/
theorem stop_loss_preserves_remaining_shares_witness :
    ((∀ t' ∈ c7StopRes.trades, ∃ t ∈ acmePhase2Db.trades,
      t'.id = t.id ∧ t'.remaining_shares = t.remaining_shares) ∧
    ∃ trade, acmePhase2Db.findTrade 1 = some trade ∧
      (c7StopRes.findTrade 1).map (fun t => t.status) = some "completed" ∧
      (c7StopRes.findTrade 1).map (fun t => t.remaining_shares) =
        some trade.remaining_shares) ∧
    (c7StopRes.findTrade 1).map (fun t => t.remaining_shares) = some 650 := by
  constructor
  · exact stop_loss_preserves_remaining_shares acmePhase2Db 1 2 10 300 envA
      c7StopRes rfl
  · decide

/-! ## C6: the take-profit path -/

/-- The ledger after phase 1's take-profit fill at 10.20 was processed on
the active ACME state. -/
def c6Res : DB :=
  exceptDb (handlePhaseTakeProfitHit acmeActiveDb 1 1 10.2 envA) acmeActiveDb

/-- C6: for every take-profit fill on phase N of a trade (with distinct
phase-row ids), the handler records the phase's P&L
`(fillPrice - entryPrice) * sharesInPhase`, marks phase N completed,
decrements the trade's remaining shares by that phase's allocation,
cancels the phase's now-redundant protective `remaining_sl` stop orders,
and then either finalizes the trade (when N >= 4 or no shares remain,
with exit reason `phase_4_complete`) or advances to phase N + 1, marks
that phase active and records its OCO order at that phase's prices. -/
theorem take_profit_hit_spec (db : DB) (tid : Nat) (n : ℤ) (fp : ℚ)
    (env : VenueEnv) (db' : DB)
    (hnd : (db.trade_phases.map (fun p => p.id)).Nodup)
    (h : handlePhaseTakeProfitHit db tid n fp env = .ok db') :
    ∃ trade ph, db.findTrade tid = some trade ∧
      db.findPhase tid n = some ph ∧
      db'.reconciliation_issues = db.reconciliation_issues ∧
      ({ ph with
        status := "completed", exit_price := some fp,
        exit_type := some "take_profit",
        phase_pnl := some ((fp - trade.entry_price) * ph.shares_to_sell) } :
        TradePhase) ∈ db'.trade_phases ∧
      (db'.findTrade tid).map (fun t => t.remaining_shares) =
        some (trade.remaining_shares - ph.shares_to_sell) ∧
      (∀ o ∈ db.orders, o.trade_id = tid → o.phase = n →
        o.purpose = "remaining_sl" → o.status ≠ "cancelled" →
        o.status ≠ "filled" → hasCancelledRow db' o.id) ∧
      (if n ≥ 4 ∨ trade.remaining_shares - ph.shares_to_sell ≤ 0 then
        (db'.findTrade tid).map (fun t => t.status) = some "completed" ∧
        (db'.findTrade tid).map (fun t => t.exit_reason) =
          some (some "phase_4_complete")
      else
        (db'.findTrade tid).map (fun t => t.current_phase) = some (n + 1) ∧
        ∃ ph2, db.findPhase tid (n + 1) = some ph2 ∧
          ({ ph2 with status := "active" } : TradePhase) ∈
            db'.trade_phases ∧
          (∃ o ∈ db'.orders, o.trade_id = tid ∧ o.phase = n + 1 ∧
            o.purpose = "phase_tp" ∧ o.order_class = "oco" ∧
            o.qty = ph2.shares_to_sell ∧
            o.limit_price = some ph2.take_profit_price ∧
            o.stop_price = some ph2.stop_loss_price ∧
            o.alpaca_order_id = env.ocoId ∧ o.status = env.ocoStatus)) :=
  handlePhaseTakeProfitHit_ok_spec db tid n fp env db' hnd h

/-- C6 witness: the scenario — the phase-1 take-profit fill at 10.20 for
350 shares yields phase P&L 70.00, remaining shares 650, and an active
phase 2; the protective stop for the other 650 shares (order row 23) is
cancelled. -/
theorem take_profit_hit_spec_witness :
    (acmeActiveDb.trade_phases.map (fun p => p.id)).Nodup ∧
    handlePhaseTakeProfitHit acmeActiveDb 1 1 10.2 envA = .ok c6Res ∧
    (c6Res.findTrade 1).map (fun t => t.remaining_shares) = some 650 ∧
    (c6Res.findTrade 1).map (fun t => t.current_phase) = some 2 ∧
    ((c6Res.trade_phases.find? (fun p => decide (p.phase_number = 2))).map
      (fun p => p.status)) = some "active" ∧
    ((c6Res.trade_phases.find? (fun p => decide (p.phase_number = 1))).map
      (fun p => p.phase_pnl)) = some (some 70) ∧
    ((c6Res.orders.find? (fun o => decide (o.id = 23))).map
      (fun o => o.status)) = some "cancelled" := by
  have h := take_profit_hit_spec acmeActiveDb 1 1 (10.2 : ℚ) envA c6Res
    (by decide) rfl
  refine ⟨by decide, rfl, ?_, by decide, by decide, ?_, by decide⟩
  · obtain ⟨trade, ph, hT, hP, _, _, hrem, _, _⟩ := h
    have htr : trade = { acmeTradePending with
        status := "active", current_phase := 1 } :=
      Option.some.inj (hT.symm.trans rfl)
    have hph : ph = { acmePhase1 with status := "active" } :=
      Option.some.inj (hP.symm.trans rfl)
    rw [hrem, htr, hph]
    decide
  · rw [show (c6Res.trade_phases.find? (fun p =>
        decide (p.phase_number = 1))).map (fun p => p.phase_pnl) =
      some (some (((10.2 : ℚ) - 10) * ((350 : ℤ) : ℚ))) from rfl]
    norm_num

/-! ## C4 and C5: the entry-fill path -/

/-- The ledger after the ACME entry filled at 10.00. -/
def c5Res : DB :=
  exceptDb (handleEntryFill acmePendingDb 1 10 1000 envA) acmePendingDb

/-- C5 (amended): whenever `handleEntryFill` processes an entry fill for
an existing trade — with no guard on the trade's previous status, so
re-delivery re-applies the updates instead of being a no-op — it sets the
trade's status to `active` and `current_phase` to 1, overwrites
`entry_price` with the actual fill price, and recomputes every phase's
absolute take-profit price as `fillPrice * (1 + take_profit_pct / 100)`
and stop-loss price as `fillPrice * (1 + stop_loss_pct / 100)` from the
actual fill price, not the originally estimated entry price. -/
theorem entry_fill_reprices_unconditionally (db : DB) (tid : Nat)
    (fp : ℚ) (qty : ℤ) (env : VenueEnv) (db' : DB)
    (h : handleEntryFill db tid fp qty env = .ok db') :
    (db'.findTrade tid).map (fun t => t.status) = some "active" ∧
    (db'.findTrade tid).map (fun t => t.current_phase) = some 1 ∧
    (db'.findTrade tid).map (fun t => t.entry_price) = some fp ∧
    ∀ p ∈ db.trade_phases, p.trade_id = tid →
      ∃ p' ∈ db'.trade_phases, p'.id = p.id ∧
        p'.take_profit_price = fp * (1 + p.take_profit_pct / 100) ∧
        p'.stop_loss_price = fp * (1 + p.stop_loss_pct / 100) := by
  obtain ⟨trade, hT, _hIs, _hTr, hEp, hSt, hCp, pid, hPh⟩ :=
    handleEntryFill_ok_spec db tid fp qty env db' h
  refine ⟨hSt, hCp, hEp, ?_⟩
  intro p hp hptid
  have hmem := List.mem_map_of_mem (fun q =>
      if decide (q.id = pid) = true then ({ q with status := "active" } :
        TradePhase) else q)
    (List.mem_map_of_mem (fun q =>
      if decide (q.trade_id = tid) = true then ({ q with
        take_profit_price := fp * (1 + q.take_profit_pct / 100),
        stop_loss_price := fp * (1 + q.stop_loss_pct / 100) } : TradePhase)
      else q) hp)
  rw [← hPh] at hmem
  refine ⟨_, hmem, ?_, ?_, ?_⟩ <;>
    (simp only [if_pos (show decide (p.trade_id = tid) = true by
      simp [hptid])]) <;>
    (by_cases h2 : decide (({ p with
        take_profit_price := fp * (1 + p.take_profit_pct / 100),
        stop_loss_price := fp * (1 + p.stop_loss_pct / 100) } :
        TradePhase).id = pid) = true) <;>
    simp [h2]

/-- C5 witness: the scenario — the pending 1000-share ACME trade filled at
10.00 becomes active in phase 1 and its phase prices become
TP = 10.20/10.50/10.80/11.20 and SL = 9.80/10.00/10.20/10.50. -/
theorem entry_fill_reprices_unconditionally_witness :
    (acmePendingDb.findTrade 1).map (fun t => t.status) = some "pending" ∧
    handleEntryFill acmePendingDb 1 10 1000 envA = .ok c5Res ∧
    ((c5Res.findTrade 1).map (fun t => t.status) = some "active" ∧
      (c5Res.findTrade 1).map (fun t => t.current_phase) = some 1 ∧
      (c5Res.findTrade 1).map (fun t => t.entry_price) = some 10 ∧
      ∀ p ∈ acmePendingDb.trade_phases, p.trade_id = 1 →
        ∃ p' ∈ c5Res.trade_phases, p'.id = p.id ∧
          p'.take_profit_price = 10 * (1 + p.take_profit_pct / 100) ∧
          p'.stop_loss_price = 10 * (1 + p.stop_loss_pct / 100)) ∧
    c5Res.trade_phases.map (fun p => p.take_profit_price) =
      [10.2, 10.5, 10.8, 11.2] ∧
    c5Res.trade_phases.map (fun p => p.stop_loss_price) =
      [9.8, 10, 10.2, 10.5] := by
  refine ⟨by decide, rfl,
    entry_fill_reprices_unconditionally acmePendingDb 1 10 1000 envA c5Res
      rfl, ?_, ?_⟩
  · rw [show c5Res.trade_phases.map (fun p => p.take_profit_price) =
      [10 * (1 + 2 / 100), 10 * (1 + 5 / 100), 10 * (1 + 8 / 100),
       10 * (1 + 12 / 100)] from rfl]
    norm_num
  · rw [show c5Res.trade_phases.map (fun p => p.stop_loss_price) =
      [10 * (1 + -2 / 100), 10 * (1 + 0 / 100), 10 * (1 + 2 / 100),
       10 * (1 + 5 / 100)] from rfl]
    norm_num

/-- C4: after the entry fill's price recomputation, the trade's recorded
entry price is the fill price, and every phase of the trade after phase 1
whose `stop_loss_pct` is nonnegative has a stop-loss price at or above it
(breakeven-or-better), for any nonnegative fill price. -/
theorem phase2plus_stop_at_or_above_entry (db : DB) (tid : Nat) (fp : ℚ)
    (qty : ℤ) (env : VenueEnv) (db' : DB) (hfp : 0 ≤ fp)
    (h : handleEntryFill db tid fp qty env = .ok db') :
    (db'.findTrade tid).map (fun t => t.entry_price) = some fp ∧
    ∀ p' ∈ db'.trade_phases, p'.trade_id = tid → 2 ≤ p'.phase_number →
      0 ≤ p'.stop_loss_pct → fp ≤ p'.stop_loss_price := by
  obtain ⟨trade, hT, _hIs, _hTr, hEp, _hSt, _hCp, pid, hPh⟩ :=
    handleEntryFill_ok_spec db tid fp qty env db' h
  refine ⟨hEp, ?_⟩
  intro p' hp' htid2 _hge2 hpct
  rw [hPh] at hp'
  obtain ⟨q1, hq1, hq1e⟩ := List.mem_map.mp hp'
  obtain ⟨q0, _hq0, hq0e⟩ := List.mem_map.mp hq1
  subst hq1e
  subst hq0e
  have key : ∀ r : TradePhase, 0 ≤ r.stop_loss_pct →
      fp ≤ fp * (1 + r.stop_loss_pct / 100) := by
    intro r hr
    nlinarith [mul_nonneg hfp (div_nonneg hr
      (by norm_num : (0 : ℚ) ≤ 100))]
  by_cases e0 : decide (q0.trade_id = tid) = true
  · simp only [if_pos e0] at htid2 hpct ⊢
    by_cases e1 : decide (({ q0 with
        take_profit_price := fp * (1 + q0.take_profit_pct / 100),
        stop_loss_price := fp * (1 + q0.stop_loss_pct / 100) } :
        TradePhase).id = pid) = true
    · simp only [if_pos e1] at hpct ⊢
      exact key q0 (by simpa using hpct)
    · simp only [if_neg e1] at hpct ⊢
      exact key q0 (by simpa using hpct)
  · simp only [if_neg e0] at htid2 hpct ⊢
    by_cases e1 : decide (q0.id = pid) = true
    · simp only [if_pos e1] at htid2 hpct ⊢
      exact absurd (by simpa using htid2) (by simpa using e0)
    · simp only [if_neg e1] at htid2 hpct ⊢
      exact absurd (by simpa using htid2) (by simpa using e0)

/-- C4 witness: the ACME entry fill at 10.00 — every phase after phase 1
with nonnegative stop-loss percentage ends with its stop-loss at or above
the recorded entry price 10.00. -/
theorem phase2plus_stop_at_or_above_entry_witness :
    (0 : ℚ) ≤ 10 ∧
    (c5Res.findTrade 1).map (fun t => t.entry_price) = some 10 ∧
    ∀ p' ∈ c5Res.trade_phases, p'.trade_id = 1 → 2 ≤ p'.phase_number →
      0 ≤ p'.stop_loss_pct → (10 : ℚ) ≤ p'.stop_loss_price := by
  have h := phase2plus_stop_at_or_above_entry acmePendingDb 1 10 1000 envA
    c5Res (by norm_num) rfl
  exact ⟨by norm_num, h.1, h.2⟩

/-! ## C8 (amended): trade finalization -/

/-- C8 (amended): whenever `completeTrade` runs on an existing trade — it
has NO terminal-status guard, so this includes trades that are already
completed or cancelled, whose exit fields it then overwrites — it sets
`realized_pnl` to the sum of `phase_pnl` over the trade's phases that
recorded a P&L, `realized_pnl_pct` to that sum against position size
(× 100), the exit phase to the highest-numbered completed phase (or 1),
the given exit reason, and status `completed`; and whenever a recorded
P&L coincides with being completed, `realized_pnl` equals the sum of
`phase_pnl` over the completed phases. -/
theorem complete_trade_spec (db : DB) (tid : Nat) (reason : String)
    (db' : DB) (h : completeTrade db tid reason = .ok db') :
    ∃ t, db.findTrade tid = some t ∧
      (db'.findTrade tid).map (fun u => u.status) = some "completed" ∧
      (db'.findTrade tid).map (fun u => u.realized_pnl) =
        some (some (totalPnlOf (db.pnlPhases tid))) ∧
      (db'.findTrade tid).map (fun u => u.realized_pnl_pct) =
        some (some (totalPnlOf (db.pnlPhases tid) / t.position_size * 100)) ∧
      (db'.findTrade tid).map (fun u => u.exit_phase) =
        some (some (exitPhaseOf (db.pnlPhases tid))) ∧
      (db'.findTrade tid).map (fun u => u.exit_reason) =
        some (some reason) ∧
      ((∀ p ∈ db.trade_phases, p.trade_id = tid →
          (p.phase_pnl ≠ none ↔ p.status = "completed")) →
        totalPnlOf (db.pnlPhases tid) =
          totalPnlOf (db.trade_phases.filter (fun p =>
            decide (p.trade_id = tid ∧ p.status = "completed")))) := by
  obtain ⟨t, hT, _ePh, _eOrd, _eIs, _eNx, _eEv, eTr⟩ :=
    completeTrade_ok_spec db tid reason db' h
  have htid : t.id = tid := by
    have := List.find?_some
      (show db.trades.find? (fun u => decide (u.id = tid)) = some t from hT)
    simpa using this
  have hfind : db'.findTrade tid = some
      ({ t with
         status := "completed",
         realized_pnl := some (totalPnlOf (db.pnlPhases tid)),
         realized_pnl_pct :=
           some (totalPnlOf (db.pnlPhases tid) / t.position_size * 100),
         exit_reason := some reason,
         exit_phase := some (exitPhaseOf (db.pnlPhases tid)) } : Trade) := by
    unfold DB.findTrade
    rw [eTr]
    rw [find?_map_eq_map_find? _ _ _
        (by intro x; by_cases hx : decide (x.id = tid) = true <;> simp [hx]),
      show db.trades.find? (fun u => decide (u.id = tid)) = some t from hT]
    simp [htid]
  refine ⟨t, hT, ?_, ?_, ?_, ?_, ?_, ?_⟩
  · rw [hfind]; rfl
  · rw [hfind]; rfl
  · rw [hfind]; rfl
  · rw [hfind]; rfl
  · rw [hfind]; rfl
  · intro hiff
    unfold DB.pnlPhases
    congr 1
    refine List.filter_congr ?_
    intro p hp
    by_cases hpt : p.trade_id = tid
    · have := hiff p hp hpt
      simp [hpt, this]
    · simp [hpt]

/-- C8 witness: re-finalizing the already-completed ACME trade with a new
exit reason recomputes realized P&L 70.00, reports exit phase 2 and
overwrites the exit reason — demonstrating both the P&L sum and the
absence of a run-once guard. -/
theorem complete_trade_spec_witness :
    (acmeCompletedDb.findTrade 1).map (fun t => t.status) =
      some "completed" ∧
    completeTrade acmeCompletedDb 1 "stopped_out" = .ok c8ReRes ∧
    (c8ReRes.findTrade 1).map (fun t => t.realized_pnl) = some (some 70) ∧
    (c8ReRes.findTrade 1).map (fun t => t.exit_phase) = some (some 2) ∧
    (c8ReRes.findTrade 1).map (fun t => t.exit_reason) =
      some (some "stopped_out") := by
  have h := complete_trade_spec acmeCompletedDb 1 "stopped_out" c8ReRes rfl
  refine ⟨by decide, rfl, ?_, by decide, by decide⟩
  have h70 : (70 : ℚ) + (0 + 0) = 70 := by norm_num
  rw [show (c8ReRes.findTrade 1).map (fun t => t.realized_pnl) =
    some (some ((70 : ℚ) + (0 + 0))) from rfl, h70]

/-! ## C1 (amended): reconciliation-side fill dedup -/

/-- A leg-hit `filterMap` (as built by both `findMissedEvents`'s scan and
`findOrphanedOCOLegs`) never produces an entry for a leg whose fill is
already recorded. -/
theorem filterMap_legHits_no_recorded (db : DB) (tid : Nat)
    (alpacaOrder : VenueOrder) (dbOrder : Order) (legId : String)
    (hrec : isLegFillRecorded db tid legId = true)
    (mf : MissedFill)
    (hmf : mf ∈ alpacaOrder.legs.filterMap (fun leg =>
      if leg.status = "filled" ∧ ¬ (isLegFillRecorded db tid leg.id = true)
      then some (.ocoLeg alpacaOrder leg dbOrder) else none)) :
    mf.refsLeg legId = false := by
  obtain ⟨leg, hleg, hfl⟩ := List.mem_filterMap.mp hmf
  by_cases hc : leg.status = "filled" ∧
      ¬ (isLegFillRecorded db tid leg.id = true)
  · rw [if_pos hc] at hfl
    obtain rfl := Option.some.inj hfl
    show decide (leg.id = legId) = false
    by_cases hid : leg.id = legId
    · exact absurd (by rwa [hid]) hc.2
    · simp [hid]
  · rw [if_neg hc] at hfl
    exact absurd hfl (by simp)

/-- The scan body `missedFillsForOrder` never produces an entry replaying
a leg whose fill is already recorded. -/
theorem missedFillsForOrder_no_recorded (db : DB) (trade : Trade)
    (dbOrders : List Order) (alpacaOrder : VenueOrder) (legId : String)
    (hrec : isLegFillRecorded db trade.id legId = true)
    (mf : MissedFill)
    (hmf : mf ∈ missedFillsForOrder db trade dbOrders alpacaOrder) :
    mf.refsLeg legId = false := by
  cases hfo : dbOrders.find?
      (fun o => decide (o.alpaca_order_id = alpacaOrder.id)) with
  | none => simp [missedFillsForOrder, hfo] at hmf
  | some dbOrder =>
    simp only [missedFillsForOrder, hfo] at hmf
    rcases List.mem_append.mp hmf with hmf1 | hl2
    · rcases List.mem_append.mp hmf1 with hp | hl1
      · by_cases hc : alpacaOrder.status = "filled" ∧ dbOrder.status ≠ "filled"
        · rw [if_pos hc] at hp
          obtain rfl := List.mem_singleton.mp hp
          rfl
        · rw [if_neg hc] at hp
          exact absurd hp (List.not_mem_nil mf)
      · by_cases hc : alpacaOrder.order_class = "oco"
        · rw [if_pos hc] at hl1
          exact filterMap_legHits_no_recorded db trade.id alpacaOrder dbOrder
            legId hrec mf hl1
        · rw [if_neg hc] at hl1
          exact absurd hl1 (List.not_mem_nil mf)
    · by_cases hc : alpacaOrder.order_class = "oco" ∧
          alpacaOrder.status = "canceled"
      · rw [if_pos hc] at hl2
        exact filterMap_legHits_no_recorded db trade.id alpacaOrder dbOrder
          legId hrec mf hl2
      · rw [if_neg hc] at hl2
        exact absurd hl2 (List.not_mem_nil mf)

/-- `findOrphanedOCOLegs` never produces an entry replaying a leg whose
fill is already recorded. -/
theorem orphanedOcoLegFills_no_recorded (db : DB) (trade : Trade)
    (alpacaOrders : List VenueOrder) (legId : String)
    (hrec : isLegFillRecorded db trade.id legId = true)
    (mf : MissedFill)
    (hmf : mf ∈ orphanedOcoLegFills db trade alpacaOrders) :
    mf.refsLeg legId = false := by
  simp only [orphanedOcoLegFills] at hmf
  obtain ⟨phase, hph, hmf2⟩ := List.mem_flatMap.mp hmf
  obtain ⟨oco, hoco, hmf3⟩ := List.mem_flatMap.mp hmf2
  cases hfo : alpacaOrders.find?
      (fun a => decide (a.id = oco.alpaca_order_id)) with
  | none => simp [hfo] at hmf3
  | some alpacaOrder =>
    simp only [hfo] at hmf3
    exact filterMap_legHits_no_recorded db trade.id alpacaOrder oco
      legId hrec mf hmf3

/-- C1 (amended): only the reconciliation discovery path deduplicates leg
fills.  A leg fill counts as recorded exactly when an `order_events` row
of the trade with event type `fill`/`partial_fill` references the leg id
(`isLegFillRecorded`), and the discovery stage never emits a replay entry
for a leg whose fill is recorded. -/
theorem leg_fill_recorded_dedup :
    (∀ (db : DB) (tid : Nat) (legId : String),
      isLegFillRecorded db tid legId = true ↔
        ∃ e ∈ db.order_events, e.trade_id = tid ∧
          (e.event_type = "fill" ∨ e.event_type = "partial_fill") ∧
          legId ∈ e.event_data) ∧
    (∀ (db : DB) (trade : Trade) (alpacaOrders : List VenueOrder)
        (legId : String),
      isLegFillRecorded db trade.id legId = true →
      ∀ mf ∈ discoverMissedFills db trade alpacaOrders,
        mf.refsLeg legId = false) := by
  constructor
  · intro db tid legId
    simp [isLegFillRecorded, List.any_eq_true, and_assoc]
  · intro db trade alpacaOrders legId hrec mf hmf
    simp only [discoverMissedFills] at hmf
    split at hmf
    · exact orphanedOcoLegFills_no_recorded db trade alpacaOrders legId
        hrec mf hmf
    · obtain ⟨a, ha, hmf2⟩ := List.mem_flatMap.mp hmf
      exact missedFillsForOrder_no_recorded db trade _ a legId hrec mf hmf2

/-- Witness trade for the reconciliation dedup claim. -/
def c1wTrade : Trade :=
  { id := 7, trade_uuid := "w-7", symbol := "ACME", entry_price := 10,
    total_shares := 1000, position_size := 10000, remaining_shares := 650,
    current_phase := 2, status := "active" }

/-- Witness ledger OCO order row referencing venue order `A7`. -/
def c1wOrder : Order :=
  { id := 1, trade_id := 7, alpaca_order_id := "A7",
    client_order_id := "c-7", symbol := "ACME", side := "sell",
    order_type := "limit", order_class := "oco", qty := 300, phase := 2,
    purpose := "phase_tp", status := "new" }

/-- Witness audit row: the recorded fill event for leg `L1`. -/
def c1wEvent : OrderEvent :=
  { order_id := some 1, trade_id := 7, event_type := "fill",
    event_data := ["A7", "L1"] }

/-- Witness ledger: the fill of leg `L1` is recorded, leg `L2` is not. -/
def c1wDb : DB :=
  { trades := [c1wTrade], trade_phases := [], orders := [c1wOrder],
    order_events := [c1wEvent],
    reconciliation_issues := [], nextId := 30 }

/-- The recorded leg of the witness venue OCO. -/
def c1wLeg1 : VenueLeg :=
  { id := "L1", type := "limit", status := "filled", filled_qty := 300,
    filled_avg_price := 21 }

/-- The unrecorded leg of the witness venue OCO. -/
def c1wLeg2 : VenueLeg :=
  { id := "L2", type := "stop", status := "filled", filled_qty := 350,
    filled_avg_price := 19 }

/-- Witness venue history: a canceled OCO `A7` with two filled legs. -/
def c1wVenue : List VenueOrder :=
  [{ id := "A7", status := "canceled", order_class := "oco",
     legs := [c1wLeg1, c1wLeg2], filled_qty := 0,
     filled_avg_price := 0 }]

/-- C1 witness: in the witness ledger the recorded leg `L1` satisfies the
event characterization and is excluded from discovery, while the
unrecorded leg `L2` of the same canceled OCO is discovered. -/
theorem leg_fill_recorded_dedup_witness :
    isLegFillRecorded c1wDb 7 "L1" = true ∧
    (∃ e ∈ c1wDb.order_events, e.trade_id = 7 ∧
      (e.event_type = "fill" ∨ e.event_type = "partial_fill") ∧
      "L1" ∈ e.event_data) ∧
    (∀ mf ∈ discoverMissedFills c1wDb c1wTrade c1wVenue,
      mf.refsLeg "L1" = false) ∧
    (∃ mf ∈ discoverMissedFills c1wDb c1wTrade c1wVenue,
      mf.refsLeg "L2" = true) := by
  refine ⟨by decide, ?_, ?_, by decide⟩
  · exact (leg_fill_recorded_dedup.1 c1wDb 7 "L1").mp (by decide)
  · exact fun mf hmf =>
      leg_fill_recorded_dedup.2 c1wDb c1wTrade c1wVenue "L1" (by decide)
        mf hmf

/-! ## C2 (amended): one reconciliation pass -/

/-- The venue position quantity a reconciliation pass compares against:
`positionMap.get(trade.symbol)?.qty ?? 0`. -/
def venueQty (positions : List (String × ℤ)) (symbol : String) : ℤ :=
  ((positions.find? (fun p => decide (p.1 = symbol))).map
    (fun p => p.2)).getD 0

/-- C2 (amended): one pass of `reconcileTrade` (i) takes no action when
the ledger's `remaining_shares` equals the venue's reported quantity;
(ii) on a mismatch with no discoverable missed fill appends exactly one
pending-review share-discrepancy issue and changes nothing else; and
(iii) on a mismatch explained by one discoverable missed take-profit leg
fill replays it through the take-profit handler, so `remaining_shares`
drops by that phase's allocation (converging to the venue quantity when
that explains the discrepancy) and no issue is created. -/
theorem reconcile_pass_spec :
    (∀ (db : DB) (trade : Trade) (positions : List (String × ℤ))
        (vo : List VenueOrder) (env : VenueEnv),
      trade.remaining_shares = venueQty positions trade.symbol →
      reconcileTrade db trade positions vo env = db) ∧
    (∀ (db : DB) (trade : Trade) (positions : List (String × ℤ))
        (vo : List VenueOrder) (env : VenueEnv),
      trade.remaining_shares ≠ venueQty positions trade.symbol →
      discoverMissedFills db trade vo = [] →
      reconcileTrade db trade positions vo env =
        { db with
          reconciliation_issues := db.reconciliation_issues ++
            [{ trade_id := trade.id, issue_type := "share_discrepancy",
               expected_shares := trade.remaining_shares,
               actual_shares := venueQty positions trade.symbol,
               discrepancy :=
                 trade.remaining_shares - venueQty positions trade.symbol,
               status := "pending_review" }] }) ∧
    (∀ (db : DB) (trade : Trade) (positions : List (String × ℤ))
        (vo : List VenueOrder) (env : VenueEnv) (parent : VenueOrder)
        (leg : VenueLeg) (dbOrder : Order) (db2 : DB),
      trade.remaining_shares ≠ venueQty positions trade.symbol →
      discoverMissedFills db trade vo = [.ocoLeg parent leg dbOrder] →
      leg.type ≠ "stop" →
      dbOrder.trade_id = trade.id →
      (db.trade_phases.map (fun p => p.id)).Nodup →
      handlePhaseTakeProfitHit db trade.id dbOrder.phase
        leg.filled_avg_price env = .ok db2 →
      reconcileTrade db trade positions vo env = db2 ∧
      db2.reconciliation_issues = db.reconciliation_issues ∧
      ∃ t0 ph, db.findTrade trade.id = some t0 ∧
        db.findPhase trade.id dbOrder.phase = some ph ∧
        (db2.findTrade trade.id).map (fun t => t.remaining_shares) =
          some (t0.remaining_shares - ph.shares_to_sell)) := by
  refine ⟨?_, ?_, ?_⟩
  · intro db trade positions vo env heq
    simp only [venueQty] at heq
    simp only [reconcileTrade]
    rw [if_pos heq]
  · intro db trade positions vo env hne hdisc
    simp only [venueQty] at hne
    simp only [reconcileTrade, venueQty]
    rw [if_neg hne]
    simp only [findMissedEvents]
    rw [hdisc]
    simp only [List.isEmpty_nil, if_true]
    simp only [flagForManualReview, DB.insertIssue]
  · intro db trade positions vo env parent leg dbOrder db2 hne hdisc hstop
      hdbo hnd hrun
    have hmain : reconcileTrade db trade positions vo env = db2 := by
      simp only [venueQty] at hne
      simp only [reconcileTrade]
      rw [if_neg hne]
      simp only [findMissedEvents]
      rw [hdisc]
      simp only [List.isEmpty_cons, Bool.false_eq_true, if_false,
        List.foldl_cons, List.foldl_nil]
      have hred : processMissedFill db trade
          (.ocoLeg parent leg dbOrder) env =
          exceptDb (handlePhaseTakeProfitHit db dbOrder.trade_id
            dbOrder.phase leg.filled_avg_price env) db := by
        simp only [processMissedFill]
        rw [if_neg hstop]
        rfl
      rw [hred, hdbo, hrun]
      rfl
    obtain ⟨t0, ph, hT, hP, hIs, _hmem, hRem, _hcxl, _hbr⟩ :=
      handlePhaseTakeProfitHit_ok_spec db trade.id dbOrder.phase
        leg.filled_avg_price env db2 hnd hrun
    exact ⟨hmain, hIs, t0, ph, hT, hP, hRem⟩

/-- The filled take-profit leg of the witness venue OCO. -/
def acmeTpLeg : VenueLeg :=
  { id := "L2TP", type := "limit", status := "filled", filled_qty := 300,
    filled_avg_price := 10.5 }

/-- The witness venue OCO order for phase 2 of the ACME trade. -/
def acmeVenueTpParent : VenueOrder :=
  { id := "AO2", status := "new", order_class := "oco",
    legs := [acmeTpLeg], filled_qty := 0, filled_avg_price := 0 }

/-- Venue order history whose only discoverable missed fill is the
take-profit leg of the phase-2 OCO. -/
def acmeVenueTpList : List VenueOrder := [acmeVenueTpParent]

/-- The ledger the phase-2 take-profit replay produces. -/
def c2TpRes : DB :=
  match handlePhaseTakeProfitHit acmePhase2Db 1 2 acmeTpLeg.filled_avg_price
      envA with
  | .ok d => d
  | .error _ => acmePhase2Db

/-- C2 witness: the venue reports 350 shares against the ledger's 650;
the one discoverable missed fill is the phase-2 take-profit leg (300
shares), and the pass replays it, converging `remaining_shares` to 350
with no issue created.  With matching quantities the pass is a no-op, and
with no discoverable fill it appends exactly the pending-review issue. -/
theorem reconcile_pass_spec_witness :
    reconcileTrade acmePhase2Db acmePhase2Trade [("ACME", 350)]
      acmeVenueTpList envA = c2TpRes ∧
    c2TpRes.reconciliation_issues = [] ∧
    (c2TpRes.findTrade 1).map (fun t => t.remaining_shares) = some 350 ∧
    venueQty [("ACME", 350)] acmePhase2Trade.symbol = 350 ∧
    reconcileTrade acmePhase2Db acmePhase2Trade [("ACME", 650)]
      acmeVenueTpList envA = acmePhase2Db ∧
    (reconcileTrade acmePhase2Db acmePhase2Trade [("ACME", 350)] []
      envA).reconciliation_issues =
      [{ trade_id := 1, issue_type := "share_discrepancy",
         expected_shares := 650, actual_shares := 350, discrepancy := 300,
         status := "pending_review" }] := by
  have h := reconcile_pass_spec.2.2 acmePhase2Db acmePhase2Trade
    [("ACME", 350)] acmeVenueTpList envA acmeVenueTpParent acmeTpLeg
    acmeOco2 c2TpRes (by decide) rfl (by decide) (by decide) (by decide)
    rfl
  refine ⟨h.1, by decide, by decide, by decide, ?_, by decide⟩
  exact reconcile_pass_spec.1 acmePhase2Db acmePhase2Trade [("ACME", 650)]
    acmeVenueTpList envA (by decide)

end Rze
